import Mathlib

/-!
# Verification of the Excel AI Modifier spreadsheet engine

A shallow embedding, in Lean 4, of the spreadsheet structure-discovery and
format-preserving rewrite engine of the `backend_excel_ai_modifier`
repository, together with theorems settling the frozen claims about it.

The embedding follows the Python source files:

* `app/utils/excel_utils.py` — `detect_header_row`, `find_column_mapping`,
  `extract_vehicle_info`;
* `app/utils/formatting_utils.py` — `copy_cell_style`, `apply_cell_style`,
  `get_data_row_styles`, `clear_data_rows`, `find_original_table_end`;
* `app/services/excel_service.py` — `apply_ai_enrichment`,
  `create_enriched_excel`;
* `app/services/openai_service.py` — `classify_vehicle`,
  `generate_insurance_values`, `_get_fallback_values`,
  `_fallback_classification`;
* `app/core/config.py` — `SAMPLE_RULES` and the settings constants.

Worksheets are modelled as value/style grids indexed by 1-based
(row, column) pairs with explicit `maxRow`/`maxCol` extents (accessing a
cell through openpyxl's `ws.cell(row=·, column=·, value=·)` creates it and
can thereby enlarge the extents, which the model's cell-writing operation
mirrors).  DataFrames are modelled as a column-label list plus rows mapping
column labels to optional values (`none` plays the role of pandas `NaN`).
The external OpenAI collaborator is abstracted as an oracle argument:
`none` models an unconfigured client, `some (.error e)` a call that raised,
`some (.ok v)` a successful response — exactly the three cases the Python
service code distinguishes.

Python string operations (`upper`, `lower`, `title`, `strip`, `split`,
`replace`, substring `in`) are given executable character-list
implementations so that every definition evaluates inside the kernel.
-/

deriving instance DecidableEq for Except

namespace ExcelMod

/-! ## Python string primitives

`upper` / `lower` / `title` are restricted to the alphabet this repository
manipulates: ASCII letters plus `ñ`/`Ñ` (the keyword `"AÑO"`).  Other
characters are left unchanged. -/

def upChar (c : Char) : Char :=
  if 'a' ≤ c ∧ c ≤ 'z' then Char.ofNat (c.toNat - 32)
  else if c = 'ñ' then 'Ñ' else c

def loChar (c : Char) : Char :=
  if 'A' ≤ c ∧ c ≤ 'Z' then Char.ofNat (c.toNat + 32)
  else if c = 'Ñ' then 'ñ' else c

def pyUpper (s : String) : String := String.mk (s.data.map upChar)

def pyLower (s : String) : String := String.mk (s.data.map loChar)

def isAlphaPy (c : Char) : Bool :=
  (('a' ≤ c ∧ c ≤ 'z') : Bool) || (('A' ≤ c ∧ c ≤ 'Z') : Bool) || c = 'ñ' || c = 'Ñ'

/-- Python `str.title`: a letter is uppercased when the previous character
is not a letter and lowercased otherwise. -/
def titleGo : Bool → List Char → List Char
  | _, [] => []
  | prevAlpha, c :: cs =>
    (if isAlphaPy c then (if prevAlpha then loChar c else upChar c) else c)
      :: titleGo (isAlphaPy c) cs

def pyTitle (s : String) : String := String.mk (titleGo false s.data)

/-- Python `str.strip()`: drop leading and trailing whitespace. -/
def pyStrip (s : String) : String :=
  String.mk (((s.data.dropWhile Char.isWhitespace).reverse.dropWhile
    Char.isWhitespace).reverse)

/-- Python's substring test `needle in hay`. -/
def isSubstrOf (needle hay : String) : Bool :=
  (List.range (hay.data.length + 1)).any
    (fun i => needle.data.isPrefixOf (hay.data.drop i))

def pySplitGo : List Char → List Char → List String
  | [], cur => if cur = [] then [] else [String.mk cur.reverse]
  | c :: cs, cur =>
    if c.isWhitespace then
      (if cur = [] then pySplitGo cs [] else String.mk cur.reverse :: pySplitGo cs [])
    else pySplitGo cs (c :: cur)

/-- Python's no-argument `str.split()`: split on whitespace runs,
discarding empty pieces. -/
def pySplit (s : String) : List String := pySplitGo s.data []

/-- Python `str.replace(a, b)` for single-character `a`, `b` (the only
form the source uses: `" "`↔`"_"`). -/
def replaceChar (s : String) (a b : Char) : String :=
  String.mk (s.data.map (fun c => if c = a then b else c))

/-! ## `find_column_mapping` (app/utils/excel_utils.py, lines 65-93)

The column resolver: four matching strategies tried in order, first hit
wins; a `ValueError` listing the available columns is raised only after
all four fail.  The raised error is modelled as `.error` carrying the
available-column list. -/

def find_column_mapping (cols : List String) (target : String) :
    Except (List String) String :=
  if cols.contains target then .ok target
  else
    match cols.find? (fun col => pyStrip (pyUpper col) == pyStrip (pyUpper target)) with
    | some col => .ok col
    | none =>
      match cols.find? (fun col =>
          (pySplit (pyUpper target)).all (fun w => isSubstrOf w (pyUpper col))) with
      | some col => .ok col
      | none =>
        match cols.find? (fun col =>
            isSubstrOf "TIPO" (pyUpper col) && isSubstrOf "UNIDAD" (pyUpper col)) with
        | some col => .ok col
        | none => .error cols

/-- Modelled from the spec's words for the claim-side comparison:
"Matching order (first hit wins): (1) exact string equality;
(2) case-insensitive/trimmed equality; (3) all whitespace-separated tokens
of the target appear as substrings of the candidate, case-insensitive;
(4) domain-specific partial match (both TIPO and UNIDAD tokens present);
fails with the available-columns list only after all strategies are
exhausted". -/
def resolveColumnSpec (cols : List String) (target : String) :
    Except (List String) String :=
  match cols.find? (fun col => col == target) with
  | some col => .ok col
  | none =>
    match cols.find? (fun col => pyStrip (pyUpper col) == pyStrip (pyUpper target)) with
    | some col => .ok col
    | none =>
      match cols.find? (fun col =>
          (pySplit (pyUpper target)).all (fun w => isSubstrOf w (pyUpper col))) with
      | some col => .ok col
      | none =>
        match cols.find? (fun col =>
            isSubstrOf "TIPO" (pyUpper col) && isSubstrOf "UNIDAD" (pyUpper col)) with
        | some col => .ok col
        | none => .error cols

lemma contains_iff_find? (cols : List String) (target : String) :
    cols.contains target = true ↔
      (cols.find? (fun col => col == target)).isSome = true := by
  rw [List.find?_isSome]
  constructor
  · intro h
    exact ⟨target, by simpa using h, by simp⟩
  · rintro ⟨x, hx, hbeq⟩
    have hx' : x = target := by simpa using hbeq
    subst hx'
    simpa using hx

lemma find?_eq_self_of_beq (cols : List String) (target : String) (c : String)
    (h : cols.find? (fun col => col == target) = some c) : c = target := by
  have := List.find?_some h
  simpa using this

/-- The shape of a failed resolution: the error carries exactly the
available columns and every strategy's `find?` came up empty. -/
lemma find_column_mapping_error_char (cols : List String) (target : String)
    (avail : List String) (h : find_column_mapping cols target = .error avail) :
    avail = cols ∧ ¬ cols.contains target = true ∧
    cols.find? (fun col => pyStrip (pyUpper col) == pyStrip (pyUpper target)) = none ∧
    cols.find? (fun col =>
      (pySplit (pyUpper target)).all (fun w => isSubstrOf w (pyUpper col))) = none ∧
    cols.find? (fun col =>
      isSubstrOf "TIPO" (pyUpper col) && isSubstrOf "UNIDAD" (pyUpper col)) = none := by
  unfold find_column_mapping at h
  by_cases hc : cols.contains target = true
  · rw [if_pos hc] at h; cases h
  · rw [if_neg hc] at h
    rcases hf1 : cols.find?
        (fun col => pyStrip (pyUpper col) == pyStrip (pyUpper target)) with _ | c
    all_goals rw [hf1] at h
    · rcases hf2 : cols.find? (fun col =>
          (pySplit (pyUpper target)).all (fun w => isSubstrOf w (pyUpper col))) with _ | c
      all_goals rw [hf2] at h
      · rcases hf3 : cols.find? (fun col =>
            isSubstrOf "TIPO" (pyUpper col) && isSubstrOf "UNIDAD" (pyUpper col)) with _ | c
        all_goals rw [hf3] at h
        · simp only [] at h
          cases h
          exact ⟨rfl, hc, rfl, rfl, rfl⟩
        · cases h
      · cases h
    · cases h

/-- C5: The column resolver tries strategies in this order, returning on the
first hit: (1) exact string equality, (2) case-insensitive/trimmed equality,
(3) all whitespace-separated tokens of the target appearing as
case-insensitive substrings of the candidate, (4) partial match requiring
both "TIPO" and "UNIDAD" in the candidate; it raises an error carrying the
list of available columns only after all four fail.  In particular, target
"TIPO DE UNIDAD" resolves to a column literally named "Tipo_de_Unidad". -/
theorem c5_column_resolver_order :
    (∀ cols target, find_column_mapping cols target = resolveColumnSpec cols target) ∧
    (∀ cols target avail,
       find_column_mapping cols target = .error avail → avail = cols) ∧
    (∀ cols target,
       find_column_mapping cols target = .error cols ↔
         ((∀ c ∈ cols, c ≠ target) ∧
          (∀ c ∈ cols, pyStrip (pyUpper c) ≠ pyStrip (pyUpper target)) ∧
          (∀ c ∈ cols,
             ¬ ((pySplit (pyUpper target)).all (fun w => isSubstrOf w (pyUpper c)) = true)) ∧
          (∀ c ∈ cols,
             ¬ ((isSubstrOf "TIPO" (pyUpper c) && isSubstrOf "UNIDAD" (pyUpper c)) = true)))) ∧
    find_column_mapping ["Tipo_de_Unidad"] "TIPO DE UNIDAD" = .ok "Tipo_de_Unidad" := by
  refine ⟨?_, ?_, ?_, by decide⟩
  · intro cols target
    unfold find_column_mapping resolveColumnSpec
    by_cases h : cols.contains target = true
    · rw [if_pos h]
      have h2 := (contains_iff_find? cols target).1 h
      rcases hf : cols.find? (fun col => col == target) with _ | c
      · rw [hf] at h2; simp at h2
      · have hct := find?_eq_self_of_beq cols target c hf
        subst hct
        rfl
    · rw [if_neg h]
      have h2 : cols.find? (fun col => col == target) = none := by
        rcases hf : cols.find? (fun col => col == target) with _ | c
        · rfl
        · exact absurd ((contains_iff_find? cols target).2 (by rw [hf]; rfl)) h
      rw [h2]
  · intro cols target avail h
    exact (find_column_mapping_error_char cols target avail h).1
  · intro cols target
    constructor
    · intro h
      obtain ⟨-, hcon, hf1, hf2, hf3⟩ := find_column_mapping_error_char cols target cols h
      refine ⟨?_, ?_, ?_, ?_⟩
      · intro c hc hceq
        subst hceq
        exact hcon (by simpa using hc)
      · intro c hc heq
        exact (List.find?_eq_none.mp hf1 c hc) (by simp [heq])
      · exact fun c hc => List.find?_eq_none.mp hf2 c hc
      · exact fun c hc => List.find?_eq_none.mp hf3 c hc
    · rintro ⟨h1, h2, h3, h4⟩
      have hcon : ¬ cols.contains target = true := by
        intro hc
        exact h1 target (by simpa using hc) rfl
      have hf1 : cols.find?
          (fun col => pyStrip (pyUpper col) == pyStrip (pyUpper target)) = none :=
        List.find?_eq_none.mpr fun c hc => by simpa using h2 c hc
      have hf2 : cols.find? (fun col =>
          (pySplit (pyUpper target)).all (fun w => isSubstrOf w (pyUpper col))) = none :=
        List.find?_eq_none.mpr fun c hc => by simpa using h3 c hc
      have hf3 : cols.find? (fun col =>
          isSubstrOf "TIPO" (pyUpper col) && isSubstrOf "UNIDAD" (pyUpper col)) = none :=
        List.find?_eq_none.mpr fun c hc => by simpa using h4 c hc
      unfold find_column_mapping
      rw [if_neg hcon, hf1]
      simp only []
      rw [hf2]
      simp only []
      rw [hf3]

/-- Witness for C5, at a concrete failing input: resolving "TIPO DE UNIDAD"
among the single column "A" fails, and the error carries the available
column list. -/
theorem c5_column_resolver_order_witness :
    find_column_mapping ["A"] "TIPO DE UNIDAD" = Except.error ["A"] ∧
      (["A"] : List String) = ["A"] :=
  ⟨by decide, c5_column_resolver_order.2.1 ["A"] "TIPO DE UNIDAD" ["A"] (by decide)⟩

/-! ## Worksheet model

A worksheet is a value grid and a style grid over 1-based (row, column)
coordinates, with explicit `maxRow`/`maxCol` extents.  Styles are the four
copyable facets (font, fill, border, alignment) of openpyxl cells, as
value records; the object-identity questions of claim C7 get their own
heap model further below. -/

structure CellStyle where
  font : String
  fill : String
  border : String
  alignment : String
deriving DecidableEq, Repr

instance : Inhabited CellStyle :=
  ⟨⟨"Font()", "PatternFill()", "Border()", "Alignment()"⟩⟩

structure Sheet where
  val : Nat → Nat → Option String
  sty : Nat → Nat → CellStyle
  maxRow : Nat
  maxCol : Nat

/-- openpyxl's `ws.cell(row=r, column=c, value=v)` / `cell.value = v`:
writing a value creates the cell, enlarging the sheet extents. -/
def setVal (s : Sheet) (r c : Nat) (v : Option String) : Sheet :=
  { s with
    val := fun r' c' => if r' = r ∧ c' = c then v else s.val r' c'
    maxRow := max s.maxRow r
    maxCol := max s.maxCol c }

def setSty (s : Sheet) (r c : Nat) (st : CellStyle) : Sheet :=
  { s with sty := fun r' c' => if r' = r ∧ c' = c then st else s.sty r' c' }

/-- The test `if header_cell.value and str(header_cell.value).strip():`
of `find_original_table_end`: the cell exists, is truthy, and strips to
non-empty text. -/
def cellNonblank : Option String → Bool
  | some v => pyStrip v ≠ ""
  | none => false

/-! ## `find_original_table_end` (formatting_utils.py, lines 71-82)

Scan the header row left to right over columns `1..maxCol` (the Python
`for col_idx in range(1, worksheet.max_column + 1)`), remembering the last
column whose header cell holds non-blank text; the accumulator starts
at 1.  The loop is written with an explicit iteration count so it is
structurally recursive. -/

def extGo (s : Sheet) (h : Nat) : Nat → Nat → Nat → Nat
  | acc, _, 0 => acc
  | acc, c, fuel + 1 =>
    extGo s h (if cellNonblank (s.val h c) then c else acc) (c + 1) fuel

def find_original_table_end (s : Sheet) (h : Nat) : Nat :=
  extGo s h 1 1 s.maxCol

lemma extGo_acc_le (s : Sheet) (h : Nat) :
    ∀ fuel c acc, acc ≤ c → acc ≤ extGo s h acc c fuel := by
  intro fuel
  induction fuel with
  | zero => intro c acc hac; exact le_refl acc
  | succ n ih =>
    intro c acc hac
    show acc ≤ extGo s h (if cellNonblank (s.val h c) then c else acc) (c + 1) n
    by_cases hb : cellNonblank (s.val h c) = true
    · rw [if_pos hb]
      exact le_trans hac (ih (c + 1) c (by omega))
    · rw [if_neg hb]
      exact ih (c + 1) acc (by omega)

/-- Every non-blank header column inside the scanned window is below the
scan's result. -/
lemma extGo_ge_nonblank (s : Sheet) (h : Nat) :
    ∀ fuel c acc j, c ≤ j → j < c + fuel →
      cellNonblank (s.val h j) = true → j ≤ extGo s h acc c fuel := by
  intro fuel
  induction fuel with
  | zero => intro c acc j h1 h2 _; omega
  | succ n ih =>
    intro c acc j h1 h2 h3
    show j ≤ extGo s h (if cellNonblank (s.val h c) then c else acc) (c + 1) n
    by_cases hj : j = c
    · subst hj
      rw [if_pos h3]
      exact extGo_acc_le s h n (j + 1) j (by omega)
    · exact ih (c + 1) _ j (by omega) (by omega) h3

/-- The scan's result is either the untouched accumulator or a non-blank
column inside the window. -/
lemma extGo_shape (s : Sheet) (h : Nat) :
    ∀ fuel c acc, extGo s h acc c fuel = acc ∨
      (cellNonblank (s.val h (extGo s h acc c fuel)) = true ∧
       c ≤ extGo s h acc c fuel ∧ extGo s h acc c fuel < c + fuel) := by
  intro fuel
  induction fuel with
  | zero => intro c acc; exact Or.inl rfl
  | succ n ih =>
    intro c acc
    have hstep : extGo s h acc c (n + 1) =
        extGo s h (if cellNonblank (s.val h c) then c else acc) (c + 1) n := rfl
    rw [hstep]
    rcases ih (c + 1) (if cellNonblank (s.val h c) then c else acc) with heq | ⟨hnb, hle, hlt⟩
    · by_cases hb : cellNonblank (s.val h c) = true
      · rw [if_pos hb] at heq ⊢
        refine Or.inr ?_
        rw [heq]
        exact ⟨hb, le_refl c, by omega⟩
      · rw [if_neg hb] at heq ⊢
        exact Or.inl heq
    · exact Or.inr ⟨hnb, by omega, by omega⟩

/-- Uniqueness: the extent finder returns `E` exactly when `E` is the
rightmost non-blank header column in `1..maxCol`, or `1` when there is
none. -/
lemma find_original_table_end_eq (s : Sheet) (h E : Nat) (hE1 : 1 ≤ E)
    (hcase :
      (cellNonblank (s.val h E) = true ∧ E ≤ s.maxCol ∧
        ∀ j, E < j → j ≤ s.maxCol → cellNonblank (s.val h j) = false) ∨
      (E = 1 ∧ ∀ j, 1 ≤ j → j ≤ s.maxCol → cellNonblank (s.val h j) = false)) :
    find_original_table_end s h = E := by
  have hshape := extGo_shape s h s.maxCol 1 1
  rcases hcase with ⟨hnb, hle, hmax⟩ | ⟨hE, hblank⟩
  · have hge : E ≤ extGo s h 1 1 s.maxCol :=
      extGo_ge_nonblank s h s.maxCol 1 1 E hE1 (by omega) hnb
    rcases hshape with heq | ⟨hnb', hle', hlt'⟩
    · unfold find_original_table_end
      omega
    · unfold find_original_table_end
      by_contra hne
      have hgt : E < extGo s h 1 1 s.maxCol := by omega
      have := hmax _ hgt (by omega)
      rw [this] at hnb'
      cases hnb'
  · subst hE
    rcases hshape with heq | ⟨hnb', hle', hlt'⟩
    · exact heq
    · have := hblank (extGo s h 1 1 s.maxCol) (by omega) (by omega)
      rw [this] at hnb'
      cases hnb'

/-- C2: For every sheet and 1-indexed header row, the table-extent finder
returns the largest column index in `1..maxCol` whose header cell holds
non-blank text, tolerating interleaved blanks (witnessed below on header
cells at columns 1, 2, 3, 5 with column 4 blank, where it returns 5). -/
theorem c2_table_extent_finder (s : Sheet) (h i0 : Nat)
    (h1 : 1 ≤ i0) (h2 : i0 ≤ s.maxCol) (h3 : cellNonblank (s.val h i0) = true) :
    cellNonblank (s.val h (find_original_table_end s h)) = true ∧
    1 ≤ find_original_table_end s h ∧
    find_original_table_end s h ≤ s.maxCol ∧
    ∀ j, j ≤ s.maxCol → cellNonblank (s.val h j) = true →
      j ≤ find_original_table_end s h := by
  have hge : i0 ≤ extGo s h 1 1 s.maxCol :=
    extGo_ge_nonblank s h s.maxCol 1 1 i0 h1 (by omega) h3
  have hshape := extGo_shape s h s.maxCol 1 1
  have hmain : cellNonblank (s.val h (find_original_table_end s h)) = true ∧
      1 ≤ find_original_table_end s h ∧ find_original_table_end s h ≤ s.maxCol := by
    unfold find_original_table_end
    rcases hshape with heq | ⟨hnb, hle, hlt⟩
    · have : extGo s h 1 1 s.maxCol = i0 := by omega
      rw [this]
      exact ⟨h3, by omega, h2⟩
    · exact ⟨hnb, by omega, by omega⟩
  refine ⟨hmain.1, hmain.2.1, hmain.2.2, ?_⟩
  intro j hj hnbj
  rcases Nat.eq_zero_or_pos j with hj0 | hj1
  · subst hj0
    exact Nat.zero_le _
  · exact extGo_ge_nonblank s h s.maxCol 1 1 j hj1 (by omega) hnbj

/-- Concrete header row for the C2 witness: non-blank header cells at
columns 1, 2, 3 and 5, column 4 blank. -/
def c2sheet : Sheet :=
  { val := fun r c =>
      if r = 1 ∧ 1 ≤ c ∧ c ≤ 5 ∧ c ≠ 4 then some "H" else none
    sty := fun _ _ => default
    maxRow := 1
    maxCol := 5 }

/-- Witness for C2: on the sheet with non-blank header cells at columns
1, 2, 3, 5 and column 4 blank, the extent finder returns 5, the largest
non-blank column. -/
theorem c2_table_extent_finder_witness :
    (1 ≤ 5 ∧ 5 ≤ c2sheet.maxCol ∧ cellNonblank (c2sheet.val 1 5) = true) ∧
    find_original_table_end c2sheet 1 = 5 ∧
    (∀ j, j ≤ c2sheet.maxCol → cellNonblank (c2sheet.val 1 j) = true →
      j ≤ find_original_table_end c2sheet 1) :=
  ⟨⟨by decide, by decide, by decide⟩, by decide,
    (c2_table_extent_finder c2sheet 1 5 (by decide) (by decide) (by decide)).2.2.2⟩

/-! ## The column-mapping dict and the rewrite pipeline
(`create_enriched_excel`, excel_service.py lines 114-214)

`col_mapping` is a Python dict from header text to 1-based column index;
modelled as an insertion-ordered association list: overwriting an existing
key updates it in place, new keys are appended at the end. -/

def dictMem (m : List (String × Nat)) (k : String) : Bool :=
  m.any (fun p => p.1 == k)

def dictInsert (m : List (String × Nat)) (k : String) (v : Nat) :
    List (String × Nat) :=
  if dictMem m k then m.map (fun p => if p.1 == k then (k, v) else p)
  else m ++ [(k, v)]

def dictFind (m : List (String × Nat)) (k : String) : Option Nat :=
  (m.find? (fun p => p.1 == k)).map Prod.snd

/-- One step of the `for col_idx in range(1, original_table_end_col + 1)`
mapping loop (excel_service.py, lines 149-153): `if header_cell.value:`
(truthiness, no strip) guards inserting the stripped text. -/
def mapInsertCell (s : Sheet) (h : Nat) (m : List (String × Nat)) (c : Nat) :
    List (String × Nat) :=
  match s.val h c with
  | some v => if v ≠ "" then dictInsert m (pyStrip v) c else m
  | none => m

def mapGo (s : Sheet) (h : Nat) :
    List (String × Nat) → Nat → Nat → List (String × Nat)
  | m, _, 0 => m
  | m, c, cnt + 1 => mapGo s h (mapInsertCell s h m c) (c + 1) cnt

def buildColMapping (s : Sheet) (h e : Nat) : List (String × Nat) :=
  mapGo s h [] 1 e

/-- Lines 156-171: append each configured new column that is not already
mapped, at the next free column after the original table end, writing the
header text and applying the style captured from the last original header
cell; `next_col` advances by one per inserted column. -/
def addNewColumns (h : Nat) (hstyle : CellStyle) :
    Sheet → List String → List (String × Nat) → Nat →
      Sheet × List (String × Nat) × Nat
  | s, [], m, next => (s, m, next)
  | s, n :: rest, m, next =>
    if dictMem m n then addNewColumns h hstyle s rest m next
    else
      addNewColumns h hstyle (setSty (setVal s h next (some n)) h next hstyle)
        rest (dictInsert m n next) (next + 1)

def clearCols (r : Nat) : Sheet → Nat → Nat → Sheet
  | s, _, 0 => s
  | s, c, k + 1 => clearCols r (setVal s r c none) (c + 1) k

def clearRows (mcol : Nat) : Sheet → Nat → Nat → Sheet
  | s, _, 0 => s
  | s, r, k + 1 => clearRows mcol (clearCols r s 1 (mcol - 1)) (r + 1) k

/-- `clear_data_rows` (formatting_utils.py, lines 61-68): null the value of
every cell in rows `data_start_row..max_row` and columns `1..max_col-1`
(Python `range(1, max_col)` excludes `max_col`). -/
def clear_data_rows (s : Sheet) (dataStart maxRow maxCol : Nat) : Sheet :=
  clearRows maxCol s dataStart (maxRow + 1 - dataStart)

/-- `get_data_row_styles` (formatting_utils.py, lines 49-58): capture the
styles of the first data row's cells in columns `1..e`, provided the sheet
reaches that row; modelled as a partial map from column index to the
captured style. -/
def get_data_row_styles (s : Sheet) (dataStart e : Nat) : Nat → Option CellStyle :=
  fun c =>
    if dataStart ≤ s.maxRow ∧ 1 ≤ c ∧ c ≤ e then some (s.sty dataStart c) else none

/-- Lines 185-201: write one mapped column of one enriched row.  `NaN`
(`none`) is normalised to the empty string; original columns take the
captured style of their own column, new columns the style of the last
original column. -/
def writeCell (e : Nat) (styles : Nat → Option CellStyle) (dfCols : List String)
    (row : String → Option String) (excelRow : Nat) (s : Sheet)
    (p : String × Nat) : Sheet :=
  if dfCols.contains p.1 then
    let s1 := setVal s excelRow p.2 (some ((row p.1).getD ""))
    if p.2 ≤ e then
      match styles p.2 with
      | some st => setSty s1 excelRow p.2 st
      | none => s1
    else
      match styles e with
      | some st => setSty s1 excelRow p.2 st
      | none => s1
  else s

def writeRow (e : Nat) (styles : Nat → Option CellStyle) (dfCols : List String)
    (row : String → Option String) (excelRow : Nat) :
    Sheet → List (String × Nat) → Sheet
  | s, [] => s
  | s, p :: ps =>
    writeRow e styles dfCols row excelRow (writeCell e styles dfCols row excelRow s p) ps

def writeRows (e : Nat) (styles : Nat → Option CellStyle) (dfCols : List String)
    (m : List (String × Nat)) (dataStart : Nat) :
    Sheet → Nat → List (String → Option String) → Sheet
  | s, _, [] => s
  | s, i, r :: rs =>
    writeRows e styles dfCols m dataStart
      (writeRow e styles dfCols r (dataStart + i) s m) (i + 1) rs

structure RewriteResult where
  sheet : Sheet
  mapping : List (String × Nat)
  nextCol : Nat

/-- The sheet-rewriting core of `create_enriched_excel` (excel_service.py,
lines 137-208), for the selected sheet: locate the original table end,
build the column mapping from the header row, append missing new columns
with the captured header style, capture the first data row's styles, clear
the data region, and write the enriched rows.  `headerRow` is the 0-based
detected header row; `data_start_row = header_row + 2` and
`header_row_excel = header_row + 1` as in the source.
(`auto_adjust_column_widths` only touches `worksheet.column_dimensions`,
never cells, and is not part of the cell-grid model.) -/
def create_enriched_excel (s : Sheet) (headerRow : Nat)
    (newColumns dfCols : List String) (rows : List (String → Option String)) :
    RewriteResult :=
  let dataStart := headerRow + 2
  let h := headerRow + 1
  let e := find_original_table_end s h
  let m0 := buildColMapping s h e
  let hstyle := s.sty h e
  let r1 := addNewColumns h hstyle s newColumns m0 (e + 1)
  let styles := get_data_row_styles r1.1 dataStart e
  let s2 := clear_data_rows r1.1 dataStart r1.1.maxRow r1.2.2
  let s3 := writeRows e styles dfCols r1.2.1 dataStart s2 0 rows
  ⟨s3, r1.2.1, r1.2.2⟩

/-! ### Frame lemmas for the rewrite pipeline -/

lemma setVal_val (s : Sheet) (r c : Nat) (v : Option String) (r' c' : Nat) :
    (setVal s r c v).val r' c' = if r' = r ∧ c' = c then v else s.val r' c' := rfl

lemma setVal_sty (s : Sheet) (r c : Nat) (v : Option String) :
    (setVal s r c v).sty = s.sty := rfl

lemma setSty_val (s : Sheet) (r c : Nat) (st : CellStyle) :
    (setSty s r c st).val = s.val := rfl

lemma setSty_dims (s : Sheet) (r c : Nat) (st : CellStyle) :
    (setSty s r c st).maxRow = s.maxRow ∧ (setSty s r c st).maxCol = s.maxCol :=
  ⟨rfl, rfl⟩

lemma clearCols_val (r : Nat) :
    ∀ k s c r' c', (clearCols r s c k).val r' c' =
      if r' = r ∧ c ≤ c' ∧ c' < c + k then none else s.val r' c' := by
  intro k
  induction k with
  | zero =>
    intro s c r' c'
    rw [if_neg (by rintro ⟨-, h1, h2⟩; omega)]
    rfl
  | succ n ih =>
    intro s c r' c'
    have hstep : clearCols r s c (n + 1) = clearCols r (setVal s r c none) (c + 1) n := rfl
    rw [hstep, ih]
    by_cases h1 : r' = r ∧ c + 1 ≤ c' ∧ c' < c + 1 + n
    · rw [if_pos h1, if_pos ⟨h1.1, by omega, by omega⟩]
    · rw [if_neg h1, setVal_val]
      by_cases h2 : r' = r ∧ c' = c
      · rw [if_pos h2, if_pos ⟨h2.1, by omega, by omega⟩]
      · rw [if_neg h2, if_neg ?_]
        rintro ⟨ha, hb, hc⟩
        by_cases hcc : c' = c
        · exact h2 ⟨ha, hcc⟩
        · exact h1 ⟨ha, by omega, by omega⟩

lemma clearCols_sty (r : Nat) :
    ∀ k s c, (clearCols r s c k).sty = s.sty := by
  intro k
  induction k with
  | zero => intro s c; rfl
  | succ n ih =>
    intro s c
    have hstep : clearCols r s c (n + 1) = clearCols r (setVal s r c none) (c + 1) n := rfl
    rw [hstep, ih]
    rfl

lemma clearCols_maxRow (r : Nat) :
    ∀ k s c, s.maxRow ≤ (clearCols r s c k).maxRow ∧
      (clearCols r s c k).maxRow ≤ max s.maxRow r := by
  intro k
  induction k with
  | zero => intro s c; exact ⟨le_refl _, le_max_left _ _⟩
  | succ n ih =>
    intro s c
    have hstep : clearCols r s c (n + 1) = clearCols r (setVal s r c none) (c + 1) n := rfl
    rw [hstep]
    have h1 := ih (setVal s r c none) (c + 1)
    have h2 : (setVal s r c none).maxRow = max s.maxRow r := rfl
    rw [h2] at h1
    constructor
    · exact le_trans (le_max_left _ _) h1.1
    · exact le_trans h1.2 (by omega)

lemma clearCols_maxCol (r : Nat) :
    ∀ k s c, s.maxCol ≤ (clearCols r s c k).maxCol ∧
      (clearCols r s c k).maxCol ≤ max s.maxCol (c + k - 1) := by
  intro k
  induction k with
  | zero => intro s c; exact ⟨le_refl _, le_max_left _ _⟩
  | succ n ih =>
    intro s c
    have hstep : clearCols r s c (n + 1) = clearCols r (setVal s r c none) (c + 1) n := rfl
    rw [hstep]
    have h1 := ih (setVal s r c none) (c + 1)
    have h2 : (setVal s r c none).maxCol = max s.maxCol c := rfl
    rw [h2] at h1
    constructor
    · exact le_trans (le_max_left _ _) h1.1
    · exact le_trans h1.2 (by omega)

lemma clearRows_val (mcol : Nat) :
    ∀ k s a r' c', (clearRows mcol s a k).val r' c' =
      if a ≤ r' ∧ r' < a + k ∧ 1 ≤ c' ∧ c' < mcol then none else s.val r' c' := by
  intro k
  induction k with
  | zero =>
    intro s a r' c'
    rw [if_neg (by rintro ⟨h1, h2, -, -⟩; omega)]
    rfl
  | succ n ih =>
    intro s a r' c'
    have hstep : clearRows mcol s a (n + 1) =
        clearRows mcol (clearCols a s 1 (mcol - 1)) (a + 1) n := rfl
    rw [hstep, ih]
    by_cases h1 : a + 1 ≤ r' ∧ r' < a + 1 + n ∧ 1 ≤ c' ∧ c' < mcol
    · rw [if_pos h1, if_pos ⟨by omega, by omega, h1.2.2⟩]
    · rw [if_neg h1, clearCols_val]
      by_cases h2 : r' = a ∧ 1 ≤ c' ∧ c' < 1 + (mcol - 1)
      · rw [if_pos h2, if_pos ⟨by omega, by omega, by omega, by omega⟩]
      · rw [if_neg h2, if_neg ?_]
        rintro ⟨ha, hb, hc, hd⟩
        by_cases hra : r' = a
        · exact h2 ⟨hra, hc, by omega⟩
        · exact h1 ⟨by omega, by omega, hc, hd⟩

lemma clearRows_sty (mcol : Nat) :
    ∀ k s a, (clearRows mcol s a k).sty = s.sty := by
  intro k
  induction k with
  | zero => intro s a; rfl
  | succ n ih =>
    intro s a
    have hstep : clearRows mcol s a (n + 1) =
        clearRows mcol (clearCols a s 1 (mcol - 1)) (a + 1) n := rfl
    rw [hstep, ih, clearCols_sty]

lemma clearRows_maxCol (mcol : Nat) :
    ∀ k s a, s.maxCol ≤ (clearRows mcol s a k).maxCol ∧
      (clearRows mcol s a k).maxCol ≤ max s.maxCol (mcol - 1) := by
  intro k
  induction k with
  | zero => intro s a; exact ⟨le_refl _, le_max_left _ _⟩
  | succ n ih =>
    intro s a
    have hstep : clearRows mcol s a (n + 1) =
        clearRows mcol (clearCols a s 1 (mcol - 1)) (a + 1) n := rfl
    rw [hstep]
    have h1 := ih (clearCols a s 1 (mcol - 1)) (a + 1)
    have h2 := clearCols_maxCol a (mcol - 1) s 1
    constructor
    · exact le_trans h2.1 h1.1
    · refine le_trans h1.2 ?_
      have : 1 + (mcol - 1) - 1 = mcol - 1 := by omega
      rw [this] at h2
      omega

lemma clear_data_rows_val (s : Sheet) (dataStart maxRow maxCol r c : Nat) :
    (clear_data_rows s dataStart maxRow maxCol).val r c =
      if dataStart ≤ r ∧ r ≤ maxRow ∧ 1 ≤ c ∧ c < maxCol then none
      else s.val r c := by
  unfold clear_data_rows
  rw [clearRows_val]
  by_cases h : dataStart ≤ r ∧ r ≤ maxRow ∧ 1 ≤ c ∧ c < maxCol
  · rw [if_pos ⟨h.1, by omega, h.2.2⟩, if_pos h]
  · rw [if_neg ?_, if_neg h]
    rintro ⟨h1, h2, h3, h4⟩
    exact h ⟨h1, by omega, h3, h4⟩

lemma dictInsert_mem (m : List (String × Nat)) (k : String) (v : Nat)
    (p : String × Nat) (hp : p ∈ dictInsert m k v) : p ∈ m ∨ p = (k, v) := by
  unfold dictInsert at hp
  split at hp
  · rcases List.mem_map.mp hp with ⟨q, hq, hqe⟩
    by_cases hk : q.1 == k
    · right
      rw [← hqe]
      simp [hk]
    · left
      rw [← hqe]
      simpa [hk] using hq
  · rcases List.mem_append.mp hp with h | h
    · exact Or.inl h
    · right
      simpa using h

lemma dictMem_insert_self (m : List (String × Nat)) (k : String) (v : Nat) :
    dictMem (dictInsert m k v) k = true := by
  unfold dictInsert
  by_cases h : dictMem m k = true
  · rw [if_pos h]
    unfold dictMem at h ⊢
    rcases List.any_eq_true.mp h with ⟨p, hp, hpk⟩
    exact List.any_eq_true.mpr ⟨(k, v), List.mem_map.mpr ⟨p, hp, by simp [hpk]⟩, by simp⟩
  · rw [if_neg h]
    unfold dictMem
    exact List.any_eq_true.mpr ⟨(k, v), by simp, by simp⟩

lemma dictMem_insert_mono (m : List (String × Nat)) (k k' : String) (v : Nat)
    (h : dictMem m k' = true) : dictMem (dictInsert m k v) k' = true := by
  unfold dictMem at h
  rcases List.any_eq_true.mp h with ⟨p, hp, hpk⟩
  unfold dictInsert
  by_cases hmem : dictMem m k = true
  · rw [if_pos hmem]
    unfold dictMem
    refine List.any_eq_true.mpr ?_
    by_cases hqk : p.1 == k
    · refine ⟨(k, v), List.mem_map.mpr ⟨p, hp, by simp [hqk]⟩, ?_⟩
      have h1 : p.1 = k := by simpa using hqk
      have h2 : p.1 = k' := by simpa using hpk
      simp [← h1, h2]
    · exact ⟨p, List.mem_map.mpr ⟨p, hp, by simp [hqk]⟩, hpk⟩
  · rw [if_neg hmem]
    unfold dictMem
    exact List.any_eq_true.mpr ⟨p, List.mem_append_left _ hp, hpk⟩

lemma dictInsert_not_mem (m : List (String × Nat)) (k : String) (v : Nat)
    (h : dictMem m k = false) : dictInsert m k v = m ++ [(k, v)] := by
  unfold dictInsert
  rw [if_neg (by simp [h])]

lemma dictFind_mem (m : List (String × Nat)) (k : String) (v : Nat)
    (h : dictFind m k = some v) : (k, v) ∈ m := by
  unfold dictFind at h
  rcases hf : m.find? (fun p => p.1 == k) with _ | p
  · rw [hf] at h; cases h
  · rw [hf] at h
    have hp := List.find?_some hf
    have hmem := List.mem_of_find?_eq_some hf
    have h1 : p.1 = k := by simpa using hp
    have h2 : p.2 = v := by simpa using h
    have : p = (k, v) := Prod.ext h1 h2
    rwa [this] at hmem

lemma addNewColumns_step_mem (h : Nat) (st : CellStyle) (s : Sheet)
    (n : String) (rest : List String) (m : List (String × Nat)) (next : Nat)
    (hmem : dictMem m n = true) :
    addNewColumns h st s (n :: rest) m next = addNewColumns h st s rest m next := by
  simp only [addNewColumns]
  rw [if_pos hmem]

lemma addNewColumns_step_notmem (h : Nat) (st : CellStyle) (s : Sheet)
    (n : String) (rest : List String) (m : List (String × Nat)) (next : Nat)
    (hmem : dictMem m n = false) :
    addNewColumns h st s (n :: rest) m next =
      addNewColumns h st (setSty (setVal s h next (some n)) h next st) rest
        (dictInsert m n next) (next + 1) := by
  simp only [addNewColumns]
  rw [if_neg (by simp [hmem])]

lemma addNewColumns_next_ge (h : Nat) (st : CellStyle) :
    ∀ cols (s : Sheet) m next, next ≤ (addNewColumns h st s cols m next).2.2 := by
  intro cols
  induction cols with
  | nil => intro s m next; exact le_refl _
  | cons n rest ih =>
    intro s m next
    by_cases hmem : dictMem m n = true
    · rw [addNewColumns_step_mem h st s n rest m next hmem]
      exact ih s m next
    · rw [addNewColumns_step_notmem h st s n rest m next (by simpa using hmem)]
      exact le_trans (by omega) (ih _ _ (next + 1))

lemma addNewColumns_val_frame (h : Nat) (st : CellStyle) :
    ∀ cols (s : Sheet) m next r c, (r ≠ h ∨ c < next) →
      (addNewColumns h st s cols m next).1.val r c = s.val r c := by
  intro cols
  induction cols with
  | nil => intro s m next r c _; rfl
  | cons n rest ih =>
    intro s m next r c hrc
    by_cases hmem : dictMem m n = true
    · rw [addNewColumns_step_mem h st s n rest m next hmem]
      exact ih s m next r c hrc
    · rw [addNewColumns_step_notmem h st s n rest m next (by simpa using hmem)]
      have hrc' : r ≠ h ∨ c < next + 1 := by
        rcases hrc with hr | hc
        · exact Or.inl hr
        · exact Or.inr (by omega)
      rw [ih _ _ (next + 1) r c hrc']
      show (if r = h ∧ c = next then some n else s.val r c) = s.val r c
      rw [if_neg ?_]
      rintro ⟨h1, h2⟩
      rcases hrc with hr | hc
      · exact hr h1
      · omega

lemma addNewColumns_sty_frame (h : Nat) (st : CellStyle) :
    ∀ cols (s : Sheet) m next r c, (r ≠ h ∨ c < next) →
      (addNewColumns h st s cols m next).1.sty r c = s.sty r c := by
  intro cols
  induction cols with
  | nil => intro s m next r c _; rfl
  | cons n rest ih =>
    intro s m next r c hrc
    by_cases hmem : dictMem m n = true
    · rw [addNewColumns_step_mem h st s n rest m next hmem]
      exact ih s m next r c hrc
    · rw [addNewColumns_step_notmem h st s n rest m next (by simpa using hmem)]
      have hrc' : r ≠ h ∨ c < next + 1 := by
        rcases hrc with hr | hc
        · exact Or.inl hr
        · exact Or.inr (by omega)
      rw [ih _ _ (next + 1) r c hrc']
      show (if r = h ∧ c = next then st else s.sty r c) = s.sty r c
      rw [if_neg ?_]
      rintro ⟨h1, h2⟩
      rcases hrc with hr | hc
      · exact hr h1
      · omega

lemma addNewColumns_maxRow (h : Nat) (st : CellStyle) :
    ∀ cols (s : Sheet) m next,
      s.maxRow ≤ (addNewColumns h st s cols m next).1.maxRow ∧
      (addNewColumns h st s cols m next).1.maxRow ≤ max s.maxRow h := by
  intro cols
  induction cols with
  | nil => intro s m next; exact ⟨le_refl _, le_max_left _ _⟩
  | cons n rest ih =>
    intro s m next
    by_cases hmem : dictMem m n = true
    · rw [addNewColumns_step_mem h st s n rest m next hmem]
      exact ih s m next
    · rw [addNewColumns_step_notmem h st s n rest m next (by simpa using hmem)]
      have h1 := ih (setSty (setVal s h next (some n)) h next st) (dictInsert m n next) (next + 1)
      have h2 : (setSty (setVal s h next (some n)) h next st).maxRow = max s.maxRow h := rfl
      rw [h2] at h1
      omega

lemma addNewColumns_maxCol (h : Nat) (st : CellStyle) :
    ∀ cols (s : Sheet) m next,
      s.maxCol ≤ (addNewColumns h st s cols m next).1.maxCol ∧
      (addNewColumns h st s cols m next).1.maxCol ≤
        max s.maxCol ((addNewColumns h st s cols m next).2.2 - 1) := by
  intro cols
  induction cols with
  | nil => intro s m next; exact ⟨le_refl _, le_max_left _ _⟩
  | cons n rest ih =>
    intro s m next
    by_cases hmem : dictMem m n = true
    · rw [addNewColumns_step_mem h st s n rest m next hmem]
      exact ih s m next
    · rw [addNewColumns_step_notmem h st s n rest m next (by simpa using hmem)]
      have h1 := ih (setSty (setVal s h next (some n)) h next st) (dictInsert m n next) (next + 1)
      have h2 : (setSty (setVal s h next (some n)) h next st).maxCol = max s.maxCol next := rfl
      rw [h2] at h1
      have h3 := addNewColumns_next_ge h st rest
        (setSty (setVal s h next (some n)) h next st) (dictInsert m n next) (next + 1)
      omega

/-- Rows strictly beyond the final `maxRow` were never written by the
new-column insertion. -/
lemma addNewColumns_high_rows (h : Nat) (st : CellStyle) :
    ∀ cols (s : Sheet) m next r c,
      (addNewColumns h st s cols m next).1.maxRow < r →
      (addNewColumns h st s cols m next).1.val r c = s.val r c := by
  intro cols
  induction cols with
  | nil => intro s m next r c _; rfl
  | cons n rest ih =>
    intro s m next r c hr
    by_cases hmem : dictMem m n = true
    · rw [addNewColumns_step_mem h st s n rest m next hmem] at hr ⊢
      exact ih s m next r c hr
    · rw [addNewColumns_step_notmem h st s n rest m next (by simpa using hmem)] at hr ⊢
      rw [ih _ _ (next + 1) r c hr]
      show (if r = h ∧ c = next then some n else s.val r c) = s.val r c
      rw [if_neg ?_]
      rintro ⟨h1, -⟩
      have h4 := (addNewColumns_maxRow h st rest
        (setSty (setVal s h next (some n)) h next st) (dictInsert m n next) (next + 1)).1
      have h5 : (setSty (setVal s h next (some n)) h next st).maxRow = max s.maxRow h := rfl
      rw [h5] at h4
      omega

/-- Every mapping entry produced by the insertion loop is an original
entry or sits at a freshly assigned column in `[next, next')`. -/
lemma addNewColumns_entries (h : Nat) (st : CellStyle) :
    ∀ cols (s : Sheet) m next p,
      p ∈ (addNewColumns h st s cols m next).2.1 →
      p ∈ m ∨ (next ≤ p.2 ∧ p.2 < (addNewColumns h st s cols m next).2.2) := by
  intro cols
  induction cols with
  | nil => intro s m next p hp; exact Or.inl hp
  | cons n rest ih =>
    intro s m next p hp
    by_cases hmem : dictMem m n = true
    · rw [addNewColumns_step_mem h st s n rest m next hmem] at hp ⊢
      exact ih s m next p hp
    · rw [addNewColumns_step_notmem h st s n rest m next (by simpa using hmem)] at hp ⊢
      have h3 := addNewColumns_next_ge h st rest
        (setSty (setVal s h next (some n)) h next st) (dictInsert m n next) (next + 1)
      rcases ih _ _ (next + 1) p hp with hin | ⟨hge, hlt⟩
      · rcases dictInsert_mem m n next p hin with hin' | hpe
        · exact Or.inl hin'
        · right
          rw [hpe]
          exact ⟨le_refl _, by simpa using h3⟩
      · exact Or.inr ⟨by omega, hlt⟩

lemma writeCell_val_frame (e : Nat) (styles : Nat → Option CellStyle)
    (dfCols : List String) (row : String → Option String) (excelRow : Nat)
    (s : Sheet) (p : String × Nat) (r' c' : Nat) (hr : r' ≠ excelRow) :
    (writeCell e styles dfCols row excelRow s p).val r' c' = s.val r' c' := by
  unfold writeCell
  split
  · split
    · split
      · show (if r' = excelRow ∧ c' = p.2 then _ else s.val r' c') = s.val r' c'
        rw [if_neg (by rintro ⟨h1, -⟩; exact hr h1)]
      · show (if r' = excelRow ∧ c' = p.2 then _ else s.val r' c') = s.val r' c'
        rw [if_neg (by rintro ⟨h1, -⟩; exact hr h1)]
    · split
      · show (if r' = excelRow ∧ c' = p.2 then _ else s.val r' c') = s.val r' c'
        rw [if_neg (by rintro ⟨h1, -⟩; exact hr h1)]
      · show (if r' = excelRow ∧ c' = p.2 then _ else s.val r' c') = s.val r' c'
        rw [if_neg (by rintro ⟨h1, -⟩; exact hr h1)]
  · rfl

lemma writeCell_sty_frame (e : Nat) (styles : Nat → Option CellStyle)
    (dfCols : List String) (row : String → Option String) (excelRow : Nat)
    (s : Sheet) (p : String × Nat) (r' c' : Nat) (hr : r' ≠ excelRow) :
    (writeCell e styles dfCols row excelRow s p).sty r' c' = s.sty r' c' := by
  unfold writeCell
  split
  · split
    · split
      · show (if r' = excelRow ∧ c' = p.2 then _ else _) = s.sty r' c'
        rw [if_neg (by rintro ⟨h1, -⟩; exact hr h1)]
        rfl
      · rfl
    · split
      · show (if r' = excelRow ∧ c' = p.2 then _ else _) = s.sty r' c'
        rw [if_neg (by rintro ⟨h1, -⟩; exact hr h1)]
        rfl
      · rfl
  · rfl

lemma writeCell_maxRow (e : Nat) (styles : Nat → Option CellStyle)
    (dfCols : List String) (row : String → Option String) (excelRow : Nat)
    (s : Sheet) (p : String × Nat) :
    s.maxRow ≤ (writeCell e styles dfCols row excelRow s p).maxRow ∧
    (writeCell e styles dfCols row excelRow s p).maxRow ≤ max s.maxRow excelRow := by
  unfold writeCell
  split
  · split
    · split
      all_goals exact ⟨le_max_left _ _, le_refl _⟩
    · split
      all_goals exact ⟨le_max_left _ _, le_refl _⟩
  · exact ⟨le_refl _, le_max_left _ _⟩

lemma writeCell_maxCol (e : Nat) (styles : Nat → Option CellStyle)
    (dfCols : List String) (row : String → Option String) (excelRow : Nat)
    (s : Sheet) (p : String × Nat) :
    s.maxCol ≤ (writeCell e styles dfCols row excelRow s p).maxCol ∧
    (writeCell e styles dfCols row excelRow s p).maxCol ≤ max s.maxCol p.2 := by
  unfold writeCell
  split
  · split
    · split
      all_goals exact ⟨le_max_left _ _, le_refl _⟩
    · split
      all_goals exact ⟨le_max_left _ _, le_refl _⟩
  · exact ⟨le_refl _, le_max_left _ _⟩

lemma writeRow_val_frame (e : Nat) (styles : Nat → Option CellStyle)
    (dfCols : List String) (row : String → Option String) (excelRow : Nat) :
    ∀ m (s : Sheet) r' c', r' ≠ excelRow →
      (writeRow e styles dfCols row excelRow s m).val r' c' = s.val r' c' ∧
      (writeRow e styles dfCols row excelRow s m).sty r' c' = s.sty r' c' := by
  intro m
  induction m with
  | nil => intro s r' c' _; exact ⟨rfl, rfl⟩
  | cons p ps ih =>
    intro s r' c' hr
    have h1 := ih (writeCell e styles dfCols row excelRow s p) r' c' hr
    have hstep : writeRow e styles dfCols row excelRow s (p :: ps) =
        writeRow e styles dfCols row excelRow (writeCell e styles dfCols row excelRow s p) ps := rfl
    rw [hstep]
    refine ⟨?_, ?_⟩
    · rw [h1.1]
      exact writeCell_val_frame e styles dfCols row excelRow s p r' c' hr
    · rw [h1.2]
      exact writeCell_sty_frame e styles dfCols row excelRow s p r' c' hr

lemma writeRow_maxRow (e : Nat) (styles : Nat → Option CellStyle)
    (dfCols : List String) (row : String → Option String) (excelRow : Nat) :
    ∀ m (s : Sheet),
      s.maxRow ≤ (writeRow e styles dfCols row excelRow s m).maxRow ∧
      (writeRow e styles dfCols row excelRow s m).maxRow ≤ max s.maxRow excelRow := by
  intro m
  induction m with
  | nil => intro s; exact ⟨le_refl _, le_max_left _ _⟩
  | cons p ps ih =>
    intro s
    have h1 := ih (writeCell e styles dfCols row excelRow s p)
    have h2 := writeCell_maxRow e styles dfCols row excelRow s p
    exact ⟨le_trans h2.1 h1.1, le_trans h1.2 (by omega)⟩

lemma writeRow_maxCol (e : Nat) (styles : Nat → Option CellStyle)
    (dfCols : List String) (row : String → Option String) (excelRow : Nat) :
    ∀ m (s : Sheet) B, (∀ p ∈ m, p.2 < B) →
      s.maxCol ≤ (writeRow e styles dfCols row excelRow s m).maxCol ∧
      (writeRow e styles dfCols row excelRow s m).maxCol ≤ max s.maxCol (B - 1) := by
  intro m
  induction m with
  | nil => intro s B _; exact ⟨le_refl _, le_max_left _ _⟩
  | cons p ps ih =>
    intro s B hB
    have h1 := ih (writeCell e styles dfCols row excelRow s p) B
      (fun q hq => hB q (List.mem_cons_of_mem p hq))
    have h2 := writeCell_maxCol e styles dfCols row excelRow s p
    have h3 : p.2 < B := hB p (List.mem_cons_self p ps)
    exact ⟨le_trans h2.1 h1.1, le_trans h1.2 (by omega)⟩

lemma writeRows_frame (e : Nat) (styles : Nat → Option CellStyle)
    (dfCols : List String) (m : List (String × Nat)) (dataStart : Nat) :
    ∀ rows (s : Sheet) i r' c', r' < dataStart →
      (writeRows e styles dfCols m dataStart s i rows).val r' c' = s.val r' c' ∧
      (writeRows e styles dfCols m dataStart s i rows).sty r' c' = s.sty r' c' := by
  intro rows
  induction rows with
  | nil => intro s i r' c' _; exact ⟨rfl, rfl⟩
  | cons r rs ih =>
    intro s i r' c' hlt
    have h1 := ih (writeRow e styles dfCols r (dataStart + i) s m) (i + 1) r' c' hlt
    have h2 := writeRow_val_frame e styles dfCols r (dataStart + i) m s r' c' (by omega)
    exact ⟨h1.1.trans h2.1, h1.2.trans h2.2⟩

lemma writeRows_maxCol (e : Nat) (styles : Nat → Option CellStyle)
    (dfCols : List String) (m : List (String × Nat)) (dataStart : Nat) :
    ∀ rows (s : Sheet) i B, (∀ p ∈ m, p.2 < B) →
      s.maxCol ≤ (writeRows e styles dfCols m dataStart s i rows).maxCol ∧
      (writeRows e styles dfCols m dataStart s i rows).maxCol ≤ max s.maxCol (B - 1) := by
  intro rows
  induction rows with
  | nil => intro s i B _; exact ⟨le_refl _, le_max_left _ _⟩
  | cons r rs ih =>
    intro s i B hB
    have h1 := ih (writeRow e styles dfCols r (dataStart + i) s m) (i + 1) B hB
    have h2 := writeRow_maxCol e styles dfCols r (dataStart + i) m s B hB
    exact ⟨le_trans h2.1 h1.1, le_trans h1.2 (by omega)⟩

lemma mapInsertCell_mem (s : Sheet) (h : Nat) (m : List (String × Nat)) (c : Nat)
    (p : String × Nat) (hp : p ∈ mapInsertCell s h m c) : p ∈ m ∨ p.2 = c := by
  unfold mapInsertCell at hp
  split at hp
  · split at hp
    · rcases dictInsert_mem _ _ _ _ hp with h1 | h1
      · exact Or.inl h1
      · right; rw [h1]
    · exact Or.inl hp
  · exact Or.inl hp

lemma mapGo_entries (s : Sheet) (h : Nat) :
    ∀ cnt (m : List (String × Nat)) c p, p ∈ mapGo s h m c cnt →
      p ∈ m ∨ (c ≤ p.2 ∧ p.2 < c + cnt) := by
  intro cnt
  induction cnt with
  | zero => intro m c p hp; exact Or.inl hp
  | succ n ih =>
    intro m c p hp
    have hstep : mapGo s h m c (n + 1) = mapGo s h (mapInsertCell s h m c) (c + 1) n := rfl
    rw [hstep] at hp
    rcases ih (mapInsertCell s h m c) (c + 1) p hp with h1 | ⟨h1, h2⟩
    · rcases mapInsertCell_mem s h m c p h1 with h2 | h2
      · exact Or.inl h2
      · exact Or.inr ⟨by omega, by omega⟩
    · exact Or.inr ⟨by omega, by omega⟩

/-- The new-column insertion phase of `create_enriched_excel`, with the
arguments the source computes for it. -/
def addPhase (s : Sheet) (hr : Nat) (newCols : List String) :
    Sheet × List (String × Nat) × Nat :=
  addNewColumns (hr + 1) (s.sty (hr + 1) (find_original_table_end s (hr + 1))) s
    newCols (buildColMapping s (hr + 1) (find_original_table_end s (hr + 1)))
    (find_original_table_end s (hr + 1) + 1)

lemma create_mapping_def (s : Sheet) (hr : Nat) (newCols dfCols : List String)
    (rows : List (String → Option String)) :
    (create_enriched_excel s hr newCols dfCols rows).mapping =
      (addPhase s hr newCols).2.1 := rfl

lemma create_nextCol_def (s : Sheet) (hr : Nat) (newCols dfCols : List String)
    (rows : List (String → Option String)) :
    (create_enriched_excel s hr newCols dfCols rows).nextCol =
      (addPhase s hr newCols).2.2 := rfl

lemma create_sheet_def (s : Sheet) (hr : Nat) (newCols dfCols : List String)
    (rows : List (String → Option String)) :
    (create_enriched_excel s hr newCols dfCols rows).sheet =
      writeRows (find_original_table_end s (hr + 1))
        (get_data_row_styles (addPhase s hr newCols).1 (hr + 2)
          (find_original_table_end s (hr + 1)))
        dfCols (addPhase s hr newCols).2.1 (hr + 2)
        (clear_data_rows (addPhase s hr newCols).1 (hr + 2)
          (addPhase s hr newCols).1.maxRow (addPhase s hr newCols).2.2)
        0 rows := rfl

/-- Every mapping entry the rewrite builds sits strictly left of the final
`next_col`: original columns at `1..e` and appended columns at
`e+1..next_col-1`. -/
lemma create_mapping_entries (s : Sheet) (hr : Nat) (newCols dfCols : List String)
    (rows : List (String → Option String)) (n : String) (p : Nat)
    (hfind : dictFind (create_enriched_excel s hr newCols dfCols rows).mapping n = some p) :
    1 ≤ p ∧ p < (create_enriched_excel s hr newCols dfCols rows).nextCol := by
  rw [create_mapping_def] at hfind
  rw [create_nextCol_def]
  have hmem := dictFind_mem _ _ _ hfind
  unfold addPhase at hmem ⊢
  have hnext := addNewColumns_next_ge (hr + 1)
    (s.sty (hr + 1) (find_original_table_end s (hr + 1))) newCols s
    (buildColMapping s (hr + 1) (find_original_table_end s (hr + 1)))
    (find_original_table_end s (hr + 1) + 1)
  rcases addNewColumns_entries (hr + 1)
      (s.sty (hr + 1) (find_original_table_end s (hr + 1))) newCols s
      (buildColMapping s (hr + 1) (find_original_table_end s (hr + 1)))
      (find_original_table_end s (hr + 1) + 1) (n, p) hmem with hin | ⟨h1, h2⟩
  · unfold buildColMapping at hin
    rcases mapGo_entries s (hr + 1) (find_original_table_end s (hr + 1)) [] 1 (n, p) hin
      with h0 | ⟨h1, h2⟩
    · cases h0
    · exact ⟨h1, by omega⟩
  · exact ⟨by omega, h2⟩

/-- The configured `columnas_a_agregar` of `SAMPLE_RULES`
(app/core/config.py, lines 88-93). -/
def newColumnsConfig : List String :=
  ["DANOS MATERIALES LIMITES", "DANOS MATERIALES DEDUCIBLES",
   "ROBO TOTAL LIMITES", "ROBO TOTAL DEDUCIBLES"]

/-- A sheet whose header row holds only "TIPO DE UNIDAD" and whose data
region contains a stale value at row 2, column 2 — a cell that lies in a
newly added column once the four configured columns are appended at
columns 2..5. -/
def c3sheet : Sheet :=
  { val := fun r c =>
      if r = 1 ∧ c = 1 then some "TIPO DE UNIDAD"
      else if r = 2 ∧ c = 2 then some "stale" else none
    sty := fun _ _ => default
    maxRow := 2
    maxCol := 2 }

/-- C3 counterexample: the claim says cells in the newly added columns are
not part of the cleared region.  On `c3sheet` with no enriched rows, the
column "DANOS MATERIALES LIMITES" is newly added at column 2 (the original
table ends at column 1), yet the stale value at row 2, column 2 is nulled
by the clearing pass: the cleared region extends through the newly added
columns. -/
theorem c3_cleared_region_counterexample :
    c3sheet.val 2 2 = some "stale" ∧
    find_original_table_end c3sheet 1 = 1 ∧
    dictFind (create_enriched_excel c3sheet 0 newColumnsConfig
      ["TIPO DE UNIDAD"] []).mapping "DANOS MATERIALES LIMITES" = some 2 ∧
    (create_enriched_excel c3sheet 0 newColumnsConfig
      ["TIPO DE UNIDAD"] []).sheet.val 2 2 = none :=
  ⟨rfl, by decide, by decide, by decide⟩

/-- C3 (amended): before enriched data is written, every cell in rows
`header_row+2` through the sheet's max row in columns 1 through
`next_col - 1` — a region that includes the newly added columns, since all
mapped columns (original and newly added) lie strictly below `next_col` —
has its value set to null; only columns at `next_col` and beyond are
outside the cleared region. -/
theorem c3_cleared_region :
    (∀ (s : Sheet) (dataStart maxRow maxCol r c : Nat),
       (clear_data_rows s dataStart maxRow maxCol).val r c =
         if dataStart ≤ r ∧ r ≤ maxRow ∧ 1 ≤ c ∧ c < maxCol then none
         else s.val r c) ∧
    (∀ (s : Sheet) (hr : Nat) (newCols dfCols : List String)
       (rows : List (String → Option String)) (n : String) (p : Nat),
       dictFind (create_enriched_excel s hr newCols dfCols rows).mapping n = some p →
       1 ≤ p ∧ p < (create_enriched_excel s hr newCols dfCols rows).nextCol) :=
  ⟨clear_data_rows_val, fun s hr newCols dfCols rows n p h =>
    create_mapping_entries s hr newCols dfCols rows n p h⟩

/-- Witness for C3 at a concrete input: on `c3sheet`, the original column
"TIPO DE UNIDAD" is mapped at column 1, which lies in `1..next_col-1`. -/
theorem c3_cleared_region_witness :
    dictFind (create_enriched_excel c3sheet 0 newColumnsConfig
        ["TIPO DE UNIDAD"] []).mapping "TIPO DE UNIDAD" = some 1 ∧
    1 ≤ 1 ∧ 1 < (create_enriched_excel c3sheet 0 newColumnsConfig
        ["TIPO DE UNIDAD"] []).nextCol :=
  ⟨by decide, c3_cleared_region.2 c3sheet 0 newColumnsConfig
    ["TIPO DE UNIDAD"] [] "TIPO DE UNIDAD" 1 (by decide)⟩

/-- Well-formedness of a sheet: no cell value outside the
`maxRow × maxCol` extents (as in a real workbook, where cells beyond the
dimensions do not exist). -/
def SheetWF (s : Sheet) : Prop :=
  ∀ r c, s.maxRow < r ∨ s.maxCol < c → s.val r c = none

/-- A header-only sheet: one header cell, zero data rows. -/
def c4sheet : Sheet :=
  { val := fun r c => if r = 1 ∧ c = 1 then some "TIPO DE UNIDAD" else none
    sty := fun _ _ => default
    maxRow := 1
    maxCol := 1 }

/-- C4 counterexample: the claim says no cell at or above the header row is
ever mutated, and that rewriting a header-only table leaves the header row
unmodified.  Rewriting `c4sheet` (header row 1, zero data rows) writes the
new header cell "DANOS MATERIALES LIMITES" at row 1, column 2 — a cell at
the header row whose value changes from empty to the new column name. -/
theorem c4_header_row_counterexample :
    c4sheet.val 1 2 = none ∧
    (create_enriched_excel c4sheet 0 newColumnsConfig
      ["TIPO DE UNIDAD"] []).sheet.val 1 2 = some "DANOS MATERIALES LIMITES" :=
  ⟨rfl, by decide⟩

/-- C4 (amended): the rewrite never mutates any cell strictly above the
header row (neither value nor style), and on the header row itself it
never mutates cells within the original table extent — the only
header-row writes are the new column headers appended beyond the original
extent.  Rewriting a 0-row table produces zero data rows: with no
enriched rows, every cell of the data region (rows `header_row+2` and
below, columns up to `next_col - 1`) is empty afterwards. -/
theorem c4_header_frame (s : Sheet) (hr : Nat) (newCols dfCols : List String)
    (rows : List (String → Option String)) (r c : Nat) :
    (r < hr + 1 →
      (create_enriched_excel s hr newCols dfCols rows).sheet.val r c = s.val r c ∧
      (create_enriched_excel s hr newCols dfCols rows).sheet.sty r c = s.sty r c) ∧
    (r = hr + 1 → c ≤ find_original_table_end s (hr + 1) →
      (create_enriched_excel s hr newCols dfCols rows).sheet.val r c = s.val r c ∧
      (create_enriched_excel s hr newCols dfCols rows).sheet.sty r c = s.sty r c) ∧
    (rows = [] → SheetWF s → hr + 2 ≤ r → 1 ≤ c →
      c < (create_enriched_excel s hr newCols dfCols rows).nextCol →
      (create_enriched_excel s hr newCols dfCols rows).sheet.val r c = none) := by
  rw [create_sheet_def, create_nextCol_def]
  have hclrsty := clearRows_sty (addPhase s hr newCols).2.2
  refine ⟨?_, ?_, ?_⟩
  · intro hlt
    have hw := writeRows_frame (find_original_table_end s (hr + 1))
      (get_data_row_styles (addPhase s hr newCols).1 (hr + 2)
        (find_original_table_end s (hr + 1))) dfCols (addPhase s hr newCols).2.1
      (hr + 2) rows
      (clear_data_rows (addPhase s hr newCols).1 (hr + 2)
        (addPhase s hr newCols).1.maxRow (addPhase s hr newCols).2.2) 0 r c (by omega)
    rw [hw.1, hw.2]
    rw [clear_data_rows_val, if_neg (by rintro ⟨h1, -⟩; omega)]
    unfold clear_data_rows
    rw [hclrsty]
    unfold addPhase
    constructor
    · exact addNewColumns_val_frame _ _ newCols s _ _ r c (Or.inl (by omega))
    · exact addNewColumns_sty_frame _ _ newCols s _ _ r c (Or.inl (by omega))
  · intro hre hce
    have hw := writeRows_frame (find_original_table_end s (hr + 1))
      (get_data_row_styles (addPhase s hr newCols).1 (hr + 2)
        (find_original_table_end s (hr + 1))) dfCols (addPhase s hr newCols).2.1
      (hr + 2) rows
      (clear_data_rows (addPhase s hr newCols).1 (hr + 2)
        (addPhase s hr newCols).1.maxRow (addPhase s hr newCols).2.2) 0 r c (by omega)
    rw [hw.1, hw.2]
    rw [clear_data_rows_val, if_neg (by rintro ⟨h1, -⟩; omega)]
    unfold clear_data_rows
    rw [hclrsty]
    unfold addPhase
    constructor
    · exact addNewColumns_val_frame _ _ newCols s _ _ r c (Or.inr (by omega))
    · exact addNewColumns_sty_frame _ _ newCols s _ _ r c (Or.inr (by omega))
  · intro hrows hwf hrge hc1 hclt
    subst hrows
    show (clear_data_rows (addPhase s hr newCols).1 (hr + 2)
      (addPhase s hr newCols).1.maxRow (addPhase s hr newCols).2.2).val r c = none
    rw [clear_data_rows_val]
    by_cases hle : r ≤ (addPhase s hr newCols).1.maxRow
    · rw [if_pos ⟨hrge, hle, hc1, hclt⟩]
    · rw [if_neg (by rintro ⟨-, h2, -, -⟩; omega)]
      unfold addPhase at hle ⊢
      rw [addNewColumns_high_rows _ _ newCols s _ _ r c (by omega)]
      have hmr := (addNewColumns_maxRow (hr + 1)
        (s.sty (hr + 1) (find_original_table_end s (hr + 1))) newCols s
        (buildColMapping s (hr + 1) (find_original_table_end s (hr + 1)))
        (find_original_table_end s (hr + 1) + 1)).1
      exact hwf r c (Or.inl (by omega))

/-- Witness for C4: on the header-only sheet `c4sheet` with zero enriched
rows, cells strictly above the header row are untouched and the data
region is empty after the rewrite. -/
theorem c4_header_frame_witness :
    ((0 : Nat) < 0 + 1 ∧
      (create_enriched_excel c4sheet 0 newColumnsConfig
        ["TIPO DE UNIDAD"] []).sheet.val 0 1 = c4sheet.val 0 1) ∧
    (([] : List (String → Option String)) = [] ∧ SheetWF c4sheet ∧
      (0 : Nat) + 2 ≤ 2 ∧ 1 ≤ 2 ∧
      2 < (create_enriched_excel c4sheet 0 newColumnsConfig
        ["TIPO DE UNIDAD"] []).nextCol ∧
      (create_enriched_excel c4sheet 0 newColumnsConfig
        ["TIPO DE UNIDAD"] []).sheet.val 2 2 = none) := by
  have hwf : SheetWF c4sheet := by
    intro r c hout
    have hout' : 1 < r ∨ 1 < c := hout
    show (if r = 1 ∧ c = 1 then some "TIPO DE UNIDAD" else none) = none
    rw [if_neg ?_]
    rintro ⟨h1, h2⟩
    omega
  refine ⟨⟨by omega, ?_⟩, rfl, hwf, by omega, by omega, by decide, ?_⟩
  · exact ((c4_header_frame c4sheet 0 newColumnsConfig ["TIPO DE UNIDAD"] [] 0 1).1
      (by omega)).1
  · exact (c4_header_frame c4sheet 0 newColumnsConfig ["TIPO DE UNIDAD"] [] 2 2).2.2
      rfl hwf (by omega) (by omega) (by decide)

/-! ### Lemmas for the idempotence of the rewrite (claim C9) -/

lemma addNewColumns_nil (h : Nat) (st : CellStyle) (s : Sheet)
    (m : List (String × Nat)) (next : Nat) :
    addNewColumns h st s [] m next = (s, m, next) := rfl

lemma find_original_table_end_max (s : Sheet) (h : Nat) :
    ∀ j, find_original_table_end s h < j → j ≤ s.maxCol →
      cellNonblank (s.val h j) = false := by
  intro j hgt hle
  by_cases hnb : cellNonblank (s.val h j) = true
  · have := extGo_ge_nonblank s h s.maxCol 1 1 j (by omega) (by omega) hnb
    unfold find_original_table_end at hgt
    omega
  · simpa using hnb

lemma find_original_table_end_pos (s : Sheet) (h : Nat) :
    1 ≤ find_original_table_end s h := by
  unfold find_original_table_end
  rcases extGo_shape s h s.maxCol 1 1 with heq | ⟨-, hle, -⟩
  · omega
  · omega

lemma addNewColumns_val_frame_high (h : Nat) (st : CellStyle) :
    ∀ cols (s : Sheet) m next r c,
      (addNewColumns h st s cols m next).2.2 ≤ c →
      (addNewColumns h st s cols m next).1.val r c = s.val r c := by
  intro cols
  induction cols with
  | nil => intro s m next r c _; rfl
  | cons n rest ih =>
    intro s m next r c hc
    by_cases hmem : dictMem m n = true
    · rw [addNewColumns_step_mem h st s n rest m next hmem] at hc ⊢
      exact ih s m next r c hc
    · rw [addNewColumns_step_notmem h st s n rest m next (by simpa using hmem)] at hc ⊢
      have hnext := addNewColumns_next_ge h st rest
        (setSty (setVal s h next (some n)) h next st) (dictInsert m n next) (next + 1)
      rw [ih _ _ (next + 1) r c hc]
      show (if r = h ∧ c = next then some n else s.val r c) = s.val r c
      rw [if_neg (by rintro ⟨-, h2⟩; omega)]

lemma addNewColumns_maxCol_ge_last (h : Nat) (st : CellStyle) :
    ∀ cols (s : Sheet) m next,
      next < (addNewColumns h st s cols m next).2.2 →
      (addNewColumns h st s cols m next).2.2 - 1 ≤
        (addNewColumns h st s cols m next).1.maxCol := by
  intro cols
  induction cols with
  | nil =>
    intro s m next hlt
    rw [addNewColumns_nil] at hlt
    have hlt' : next < next := hlt
    omega
  | cons n rest ih =>
    intro s m next hlt
    by_cases hmem : dictMem m n = true
    · rw [addNewColumns_step_mem h st s n rest m next hmem] at hlt ⊢
      exact ih s m next hlt
    · rw [addNewColumns_step_notmem h st s n rest m next (by simpa using hmem)] at hlt ⊢
      by_cases hlt2 : next + 1 <
          (addNewColumns h st (setSty (setVal s h next (some n)) h next st) rest
            (dictInsert m n next) (next + 1)).2.2
      · exact ih _ _ (next + 1) hlt2
      · have hnext := addNewColumns_next_ge h st rest
          (setSty (setVal s h next (some n)) h next st) (dictInsert m n next) (next + 1)
        have heqn : (addNewColumns h st (setSty (setVal s h next (some n)) h next st) rest
            (dictInsert m n next) (next + 1)).2.2 = next + 1 := by omega
        rw [heqn]
        have hmc := (addNewColumns_maxCol h st rest
          (setSty (setVal s h next (some n)) h next st) (dictInsert m n next) (next + 1)).1
        have hmc2 : (setSty (setVal s h next (some n)) h next st).maxCol =
            max s.maxCol next := rfl
        rw [hmc2] at hmc
        omega

lemma addNewColumns_cells_nonblank (h : Nat) (st : CellStyle) :
    ∀ cols (s : Sheet) m next,
      (∀ n ∈ cols, pyStrip n = n ∧ n ≠ "") →
      ∀ c, next ≤ c → c < (addNewColumns h st s cols m next).2.2 →
      cellNonblank ((addNewColumns h st s cols m next).1.val h c) = true := by
  intro cols
  induction cols with
  | nil =>
    intro s m next _ c h1 h2
    rw [addNewColumns_nil] at h2
    have h2' : c < next := h2
    omega
  | cons n rest ih =>
    intro s m next hcols c h1 h2
    by_cases hmem : dictMem m n = true
    · rw [addNewColumns_step_mem h st s n rest m next hmem] at h2 ⊢
      exact ih s m next (fun q hq => hcols q (List.mem_cons_of_mem n hq)) c h1 h2
    · rw [addNewColumns_step_notmem h st s n rest m next (by simpa using hmem)] at h2 ⊢
      by_cases hc : c = next
      · rw [addNewColumns_val_frame h st rest _ _ (next + 1) h c (Or.inr (by omega))]
        show cellNonblank (if h = h ∧ c = next then some n else s.val h c) = true
        rw [if_pos ⟨rfl, hc⟩]
        have hn := hcols n (List.mem_cons_self n rest)
        show decide (pyStrip n ≠ "") = true
        rw [hn.1]
        simpa using hn.2
      · exact ih _ _ (next + 1) (fun q hq => hcols q (List.mem_cons_of_mem n hq)) c
          (by omega) h2

lemma mapGo_step (s : Sheet) (h : Nat) (m : List (String × Nat)) (c k : Nat) :
    mapGo s h m c (k + 1) = mapGo s h (mapInsertCell s h m c) (c + 1) k := rfl

lemma mapGo_congr (s' s : Sheet) (h : Nat) :
    ∀ cnt (m : List (String × Nat)) c,
      (∀ j, c ≤ j → j < c + cnt → s'.val h j = s.val h j) →
      mapGo s' h m c cnt = mapGo s h m c cnt := by
  intro cnt
  induction cnt with
  | zero => intro m c _; rfl
  | succ n ih =>
    intro m c hcells
    rw [mapGo_step, mapGo_step]
    have hc : mapInsertCell s' h m c = mapInsertCell s h m c := by
      unfold mapInsertCell
      rw [hcells c (le_refl c) (by omega)]
    rw [hc]
    exact ih _ (c + 1) (fun j h1 h2 => hcells j (by omega) (by omega))

lemma mapGo_split (s : Sheet) (h : Nat) :
    ∀ x (m : List (String × Nat)) c y,
      mapGo s h m c (x + y) = mapGo s h (mapGo s h m c x) (c + x) y := by
  intro x
  induction x with
  | zero =>
    intro m c y
    show mapGo s h m c (0 + y) = mapGo s h m (c + 0) y
    rw [Nat.zero_add, Nat.add_zero]
  | succ n ih =>
    intro m c y
    have h1 : n + 1 + y = (n + y) + 1 := by omega
    rw [h1, mapGo_step, mapGo_step, ih _ (c + 1) y]
    have h2 : c + 1 + n = c + (n + 1) := by omega
    rw [h2]

lemma addNewColumns_replay (h : Nat) (st : CellStyle) :
    ∀ cols (s : Sheet) m next,
      (∀ n ∈ cols, pyStrip n = n ∧ n ≠ "") →
      mapGo (addNewColumns h st s cols m next).1 h m next
          ((addNewColumns h st s cols m next).2.2 - next) =
        (addNewColumns h st s cols m next).2.1 := by
  intro cols
  induction cols with
  | nil =>
    intro s m next _
    rw [addNewColumns_nil]
    show mapGo s h m next (next - next) = m
    rw [Nat.sub_self]
    rfl
  | cons n rest ih =>
    intro s m next hcols
    by_cases hmem : dictMem m n = true
    · rw [addNewColumns_step_mem h st s n rest m next hmem]
      exact ih s m next (fun q hq => hcols q (List.mem_cons_of_mem n hq))
    · rw [addNewColumns_step_notmem h st s n rest m next (by simpa using hmem)]
      have hnext := addNewColumns_next_ge h st rest
        (setSty (setVal s h next (some n)) h next st) (dictInsert m n next) (next + 1)
      have hd : (addNewColumns h st (setSty (setVal s h next (some n)) h next st) rest
          (dictInsert m n next) (next + 1)).2.2 - next =
          ((addNewColumns h st (setSty (setVal s h next (some n)) h next st) rest
            (dictInsert m n next) (next + 1)).2.2 - (next + 1)) + 1 := by omega
      rw [hd, mapGo_step]
      have hcell : mapInsertCell (addNewColumns h st
          (setSty (setVal s h next (some n)) h next st) rest
          (dictInsert m n next) (next + 1)).1 h m next = dictInsert m n next := by
        unfold mapInsertCell
        rw [addNewColumns_val_frame h st rest _ _ (next + 1) h next (Or.inr (by omega))]
        show (match (if h = h ∧ next = next then some n else s.val h next) with
          | some v => if v ≠ "" then dictInsert m (pyStrip v) next else m
          | none => m) = dictInsert m n next
        rw [if_pos ⟨rfl, rfl⟩]
        have hn := hcols n (List.mem_cons_self n rest)
        show (if n ≠ "" then dictInsert m (pyStrip n) next else m) = dictInsert m n next
        rw [if_pos hn.2, hn.1]
      rw [hcell]
      exact ih _ _ (next + 1) (fun q hq => hcols q (List.mem_cons_of_mem n hq))

lemma addNewColumns_mem_mono (h : Nat) (st : CellStyle) :
    ∀ cols (s : Sheet) m next k, dictMem m k = true →
      dictMem (addNewColumns h st s cols m next).2.1 k = true := by
  intro cols
  induction cols with
  | nil => intro s m next k hk; exact hk
  | cons n rest ih =>
    intro s m next k hk
    by_cases hmem : dictMem m n = true
    · rw [addNewColumns_step_mem h st s n rest m next hmem]
      exact ih s m next k hk
    · rw [addNewColumns_step_notmem h st s n rest m next (by simpa using hmem)]
      exact ih _ _ (next + 1) k (dictMem_insert_mono m n k next hk)

lemma addNewColumns_mem_all (h : Nat) (st : CellStyle) :
    ∀ cols (s : Sheet) m next k, k ∈ cols →
      dictMem (addNewColumns h st s cols m next).2.1 k = true := by
  intro cols
  induction cols with
  | nil => intro s m next k hk; cases hk
  | cons n rest ih =>
    intro s m next k hk
    by_cases hmem : dictMem m n = true
    · rw [addNewColumns_step_mem h st s n rest m next hmem]
      rcases List.mem_cons.mp hk with hke | hkr
      · subst hke
        exact addNewColumns_mem_mono h st rest s m next k hmem
      · exact ih s m next k hkr
    · rw [addNewColumns_step_notmem h st s n rest m next (by simpa using hmem)]
      rcases List.mem_cons.mp hk with hke | hkr
      · subst hke
        exact addNewColumns_mem_mono h st rest _ _ (next + 1) k
          (dictMem_insert_self m k next)
      · exact ih _ _ (next + 1) k hkr

lemma addNewColumns_noop (h : Nat) (st : CellStyle) :
    ∀ cols (s : Sheet) m next, (∀ n ∈ cols, dictMem m n = true) →
      addNewColumns h st s cols m next = (s, m, next) := by
  intro cols
  induction cols with
  | nil => intro s m next _; rfl
  | cons n rest ih =>
    intro s m next hall
    rw [addNewColumns_step_mem h st s n rest m next (hall n (List.mem_cons_self n rest))]
    exact ih s m next (fun q hq => hall q (List.mem_cons_of_mem n hq))

lemma addNewColumns_append (h : Nat) (st : CellStyle) :
    ∀ cols (s : Sheet) m next,
      ∃ tail, (addNewColumns h st s cols m next).2.1 = m ++ tail ∧
        ∀ q ∈ tail, next ≤ q.2 ∧ q.2 < (addNewColumns h st s cols m next).2.2 := by
  intro cols
  induction cols with
  | nil =>
    intro s m next
    exact ⟨[], by simp [addNewColumns_nil], by simp⟩
  | cons n rest ih =>
    intro s m next
    by_cases hmem : dictMem m n = true
    · rw [addNewColumns_step_mem h st s n rest m next hmem]
      exact ih s m next
    · rw [addNewColumns_step_notmem h st s n rest m next (by simpa using hmem)]
      have hnext := addNewColumns_next_ge h st rest
        (setSty (setVal s h next (some n)) h next st) (dictInsert m n next) (next + 1)
      rcases ih (setSty (setVal s h next (some n)) h next st) (dictInsert m n next)
        (next + 1) with ⟨tail, htail, hbound⟩
      refine ⟨(n, next) :: tail, ?_, ?_⟩
      · rw [htail, dictInsert_not_mem m n next (by simpa using hmem)]
        simp
      · intro q hq
        rcases List.mem_cons.mp hq with hqe | hqt
        · rw [hqe]
          exact ⟨le_refl _, by omega⟩
        · have := hbound q hqt
          exact ⟨by omega, this.2⟩

lemma addPhase_entries (s : Sheet) (hr : Nat) (newCols : List String)
    (p : String × Nat) (hp : p ∈ (addPhase s hr newCols).2.1) :
    1 ≤ p.2 ∧ p.2 < (addPhase s hr newCols).2.2 := by
  unfold addPhase at hp ⊢
  have hnext := addNewColumns_next_ge (hr + 1)
    (s.sty (hr + 1) (find_original_table_end s (hr + 1))) newCols s
    (buildColMapping s (hr + 1) (find_original_table_end s (hr + 1)))
    (find_original_table_end s (hr + 1) + 1)
  rcases addNewColumns_entries (hr + 1)
      (s.sty (hr + 1) (find_original_table_end s (hr + 1))) newCols s
      (buildColMapping s (hr + 1) (find_original_table_end s (hr + 1)))
      (find_original_table_end s (hr + 1) + 1) p hp with hin | ⟨h1, h2⟩
  · unfold buildColMapping at hin
    rcases mapGo_entries s (hr + 1) (find_original_table_end s (hr + 1)) [] 1 p hin
      with h0 | ⟨h1, h2⟩
    · cases h0
    · exact ⟨h1, by omega⟩
  · exact ⟨by omega, h2⟩

lemma addPhase_next_ge (s : Sheet) (hr : Nat) (newCols : List String) :
    find_original_table_end s (hr + 1) + 1 ≤ (addPhase s hr newCols).2.2 :=
  addNewColumns_next_ge (hr + 1)
    (s.sty (hr + 1) (find_original_table_end s (hr + 1))) newCols s
    (buildColMapping s (hr + 1) (find_original_table_end s (hr + 1)))
    (find_original_table_end s (hr + 1) + 1)

/-- The header row of the rewritten sheet is exactly the header row after
the new-column insertion phase: neither clearing nor data writing touches
it. -/
lemma create_row_h (s : Sheet) (hr : Nat) (newCols dfCols : List String)
    (rows : List (String → Option String)) (c : Nat) :
    (create_enriched_excel s hr newCols dfCols rows).sheet.val (hr + 1) c =
      (addPhase s hr newCols).1.val (hr + 1) c := by
  rw [create_sheet_def]
  have hw := writeRows_frame (find_original_table_end s (hr + 1))
    (get_data_row_styles (addPhase s hr newCols).1 (hr + 2)
      (find_original_table_end s (hr + 1)))
    dfCols (addPhase s hr newCols).2.1 (hr + 2) rows
    (clear_data_rows (addPhase s hr newCols).1 (hr + 2)
      (addPhase s hr newCols).1.maxRow (addPhase s hr newCols).2.2)
    0 (hr + 1) c (by omega)
  rw [hw.1, clear_data_rows_val, if_neg (by rintro ⟨h1, -⟩; omega)]

lemma create_maxCol_bounds (s : Sheet) (hr : Nat) (newCols dfCols : List String)
    (rows : List (String → Option String)) :
    s.maxCol ≤ (create_enriched_excel s hr newCols dfCols rows).sheet.maxCol ∧
    (addPhase s hr newCols).1.maxCol ≤
      (create_enriched_excel s hr newCols dfCols rows).sheet.maxCol ∧
    (create_enriched_excel s hr newCols dfCols rows).sheet.maxCol ≤
      max s.maxCol ((addPhase s hr newCols).2.2 - 1) := by
  rw [create_sheet_def]
  unfold clear_data_rows
  have hB : ∀ p ∈ (addPhase s hr newCols).2.1, p.2 < (addPhase s hr newCols).2.2 :=
    fun p hp => (addPhase_entries s hr newCols p hp).2
  have hw := writeRows_maxCol (find_original_table_end s (hr + 1))
    (get_data_row_styles (addPhase s hr newCols).1 (hr + 2)
      (find_original_table_end s (hr + 1)))
    dfCols (addPhase s hr newCols).2.1 (hr + 2) rows
    (clearRows (addPhase s hr newCols).2.2 (addPhase s hr newCols).1 (hr + 2)
      ((addPhase s hr newCols).1.maxRow + 1 - (hr + 2)))
    0 (addPhase s hr newCols).2.2 hB
  have hc := clearRows_maxCol (addPhase s hr newCols).2.2
    ((addPhase s hr newCols).1.maxRow + 1 - (hr + 2)) (addPhase s hr newCols).1 (hr + 2)
  have ha := addNewColumns_maxCol (hr + 1)
    (s.sty (hr + 1) (find_original_table_end s (hr + 1))) newCols s
    (buildColMapping s (hr + 1) (find_original_table_end s (hr + 1)))
    (find_original_table_end s (hr + 1) + 1)
  have ha1 : s.maxCol ≤ (addPhase s hr newCols).1.maxCol := ha.1
  have ha2 : (addPhase s hr newCols).1.maxCol ≤
      max s.maxCol ((addPhase s hr newCols).2.2 - 1) := ha.2
  exact ⟨by omega, by omega, by omega⟩

/-- After one rewrite, the table extent of the output sheet is the column
of the last appended header (or the old extent when nothing was
appended): `next_col - 1`. -/
lemma create_ext_eq (s : Sheet) (hr : Nat) (newCols dfCols : List String)
    (rows : List (String → Option String))
    (hcols : ∀ n ∈ newCols, pyStrip n = n ∧ n ≠ "") :
    find_original_table_end
        (create_enriched_excel s hr newCols dfCols rows).sheet (hr + 1) =
      (addPhase s hr newCols).2.2 - 1 := by
  have hnge := addPhase_next_ge s hr newCols
  have hepos := find_original_table_end_pos s (hr + 1)
  have hrowh := create_row_h s hr newCols dfCols rows
  have hbounds := create_maxCol_bounds s hr newCols dfCols rows
  have hAlow : ∀ c, c ≤ find_original_table_end s (hr + 1) →
      (addPhase s hr newCols).1.val (hr + 1) c = s.val (hr + 1) c := by
    intro c hc
    exact addNewColumns_val_frame (hr + 1)
      (s.sty (hr + 1) (find_original_table_end s (hr + 1))) newCols s
      (buildColMapping s (hr + 1) (find_original_table_end s (hr + 1)))
      (find_original_table_end s (hr + 1) + 1) (hr + 1) c (Or.inr (by omega))
  have hAhigh : ∀ c, (addPhase s hr newCols).2.2 ≤ c →
      (addPhase s hr newCols).1.val (hr + 1) c = s.val (hr + 1) c := by
    intro c hc
    exact addNewColumns_val_frame_high (hr + 1)
      (s.sty (hr + 1) (find_original_table_end s (hr + 1))) newCols s
      (buildColMapping s (hr + 1) (find_original_table_end s (hr + 1)))
      (find_original_table_end s (hr + 1) + 1) (hr + 1) c hc
  have hAnb : ∀ c, find_original_table_end s (hr + 1) + 1 ≤ c →
      c < (addPhase s hr newCols).2.2 →
      cellNonblank ((addPhase s hr newCols).1.val (hr + 1) c) = true := by
    intro c h1 h2
    exact addNewColumns_cells_nonblank (hr + 1)
      (s.sty (hr + 1) (find_original_table_end s (hr + 1))) newCols s
      (buildColMapping s (hr + 1) (find_original_table_end s (hr + 1)))
      (find_original_table_end s (hr + 1) + 1) hcols c h1 h2
  have hextmax := find_original_table_end_max s (hr + 1)
  have hRmax : ∀ j, (addPhase s hr newCols).2.2 - 1 < j →
      j ≤ (create_enriched_excel s hr newCols dfCols rows).sheet.maxCol →
      cellNonblank
        ((create_enriched_excel s hr newCols dfCols rows).sheet.val (hr + 1) j)
        = false := by
    intro j h1 h2
    rw [hrowh, hAhigh j (by omega)]
    exact hextmax j (by omega) (by omega)
  by_cases hk : find_original_table_end s (hr + 1) + 2 ≤ (addPhase s hr newCols).2.2
  · refine find_original_table_end_eq _ _ _ (by omega) (Or.inl ⟨?_, ?_, hRmax⟩)
    · rw [hrowh]
      exact hAnb _ (by omega) (by omega)
    · have hlast := addNewColumns_maxCol_ge_last (hr + 1)
        (s.sty (hr + 1) (find_original_table_end s (hr + 1))) newCols s
        (buildColMapping s (hr + 1) (find_original_table_end s (hr + 1)))
        (find_original_table_end s (hr + 1) + 1) (by exact (by omega : find_original_table_end s (hr + 1) + 1 < (addPhase s hr newCols).2.2))
      have hlast' : (addPhase s hr newCols).2.2 - 1 ≤ (addPhase s hr newCols).1.maxCol :=
        hlast
      have hb := hbounds.2.1
      omega
  · have hE : (addPhase s hr newCols).2.2 - 1 = find_original_table_end s (hr + 1) := by
      omega
    rcases extGo_shape s (hr + 1) s.maxCol 1 1 with heq | ⟨hnb, hle, hlt⟩
    · have he1 : find_original_table_end s (hr + 1) = 1 := heq
      by_cases hm : 1 ≤ (create_enriched_excel s hr newCols dfCols rows).sheet.maxCol
      · by_cases hnb1 : cellNonblank
            ((create_enriched_excel s hr newCols dfCols rows).sheet.val (hr + 1) 1) = true
        · refine find_original_table_end_eq _ _ _ (by omega) (Or.inl ⟨?_, ?_, ?_⟩)
          · rw [hE, he1]; exact hnb1
          · rw [hE, he1]; exact hm
          · intro j hj1 hj2
            exact hRmax j (by omega) hj2
        · refine find_original_table_end_eq _ _ _ (by omega) (Or.inr ⟨by omega, ?_⟩)
          intro j hj1 hj2
          by_cases hj : j = 1
          · rw [hj]
            simpa using hnb1
          · exact hRmax j (by omega) hj2
      · refine find_original_table_end_eq _ _ _ (by omega) (Or.inr ⟨by omega, ?_⟩)
        intro j hj1 hj2
        omega
    · have hnb' : cellNonblank (s.val (hr + 1) (find_original_table_end s (hr + 1)))
          = true := hnb
      have hle' : find_original_table_end s (hr + 1) ≤ s.maxCol := by
        unfold find_original_table_end
        omega
      refine find_original_table_end_eq _ _ _ (by omega) (Or.inl ⟨?_, ?_, hRmax⟩)
      · rw [hrowh, hE, hAlow _ (le_refl _)]
        exact hnb'
      · rw [hE]
        have := hbounds.1
        omega

/-- C9: Running the rewrite a second time over the output of a first
rewrite (same enriched values) yields the same column mapping and the same
header positions as the first run: every new column already present is
found in the mapping and none is re-inserted, the mapping being
append-only with new columns at indices strictly greater than the original
table extent.  (The configured new column names are non-blank and carry no
surrounding whitespace, which the hypothesis records.) -/
theorem c9_rewrite_idempotent (s : Sheet) (hr : Nat) (newCols dfCols : List String)
    (rows : List (String → Option String))
    (hcols : ∀ n ∈ newCols, pyStrip n = n ∧ n ≠ "") :
    (create_enriched_excel
        (create_enriched_excel s hr newCols dfCols rows).sheet
        hr newCols dfCols rows).mapping =
      (create_enriched_excel s hr newCols dfCols rows).mapping ∧
    (create_enriched_excel
        (create_enriched_excel s hr newCols dfCols rows).sheet
        hr newCols dfCols rows).nextCol =
      (create_enriched_excel s hr newCols dfCols rows).nextCol ∧
    (∀ c, (create_enriched_excel
        (create_enriched_excel s hr newCols dfCols rows).sheet
        hr newCols dfCols rows).sheet.val (hr + 1) c =
      (create_enriched_excel s hr newCols dfCols rows).sheet.val (hr + 1) c) ∧
    (∃ tail,
      (create_enriched_excel s hr newCols dfCols rows).mapping =
        buildColMapping s (hr + 1) (find_original_table_end s (hr + 1)) ++ tail ∧
      ∀ q ∈ tail, find_original_table_end s (hr + 1) < q.2) := by
  have hnge := addPhase_next_ge s hr newCols
  have hepos := find_original_table_end_pos s (hr + 1)
  have hext := create_ext_eq s hr newCols dfCols rows hcols
  have hrowh := create_row_h s hr newCols dfCols rows
  have hm20 : buildColMapping
      (create_enriched_excel s hr newCols dfCols rows).sheet (hr + 1)
      (find_original_table_end
        (create_enriched_excel s hr newCols dfCols rows).sheet (hr + 1)) =
      (addPhase s hr newCols).2.1 := by
    rw [hext]
    show mapGo (create_enriched_excel s hr newCols dfCols rows).sheet (hr + 1) [] 1
      ((addPhase s hr newCols).2.2 - 1) = (addPhase s hr newCols).2.1
    have hsum : (addPhase s hr newCols).2.2 - 1 =
        find_original_table_end s (hr + 1) +
          ((addPhase s hr newCols).2.2 - 1 - find_original_table_end s (hr + 1)) := by
      omega
    rw [hsum, mapGo_split]
    have hseg1 : mapGo (create_enriched_excel s hr newCols dfCols rows).sheet
        (hr + 1) [] 1 (find_original_table_end s (hr + 1)) =
        mapGo s (hr + 1) [] 1 (find_original_table_end s (hr + 1)) := by
      apply mapGo_congr
      intro j h1 h2
      rw [hrowh]
      exact addNewColumns_val_frame (hr + 1)
        (s.sty (hr + 1) (find_original_table_end s (hr + 1))) newCols s
        (buildColMapping s (hr + 1) (find_original_table_end s (hr + 1)))
        (find_original_table_end s (hr + 1) + 1) (hr + 1) j (Or.inr (by omega))
    rw [hseg1]
    have h1e : 1 + find_original_table_end s (hr + 1) =
        find_original_table_end s (hr + 1) + 1 := by omega
    rw [h1e]
    have hd : (addPhase s hr newCols).2.2 - 1 - find_original_table_end s (hr + 1) =
        (addPhase s hr newCols).2.2 - (find_original_table_end s (hr + 1) + 1) := by
      omega
    rw [hd]
    have hseg2 : mapGo (create_enriched_excel s hr newCols dfCols rows).sheet (hr + 1)
        (mapGo s (hr + 1) [] 1 (find_original_table_end s (hr + 1)))
        (find_original_table_end s (hr + 1) + 1)
        ((addPhase s hr newCols).2.2 - (find_original_table_end s (hr + 1) + 1)) =
        mapGo (addPhase s hr newCols).1 (hr + 1)
        (mapGo s (hr + 1) [] 1 (find_original_table_end s (hr + 1)))
        (find_original_table_end s (hr + 1) + 1)
        ((addPhase s hr newCols).2.2 - (find_original_table_end s (hr + 1) + 1)) := by
      apply mapGo_congr
      intro j _ _
      exact hrowh j
    rw [hseg2]
    exact addNewColumns_replay (hr + 1)
      (s.sty (hr + 1) (find_original_table_end s (hr + 1))) newCols s
      (buildColMapping s (hr + 1) (find_original_table_end s (hr + 1)))
      (find_original_table_end s (hr + 1) + 1) hcols
  have hmem2 : ∀ n ∈ newCols,
      dictMem (buildColMapping
        (create_enriched_excel s hr newCols dfCols rows).sheet (hr + 1)
        (find_original_table_end
          (create_enriched_excel s hr newCols dfCols rows).sheet (hr + 1))) n = true := by
    intro n hn
    rw [hm20]
    exact addNewColumns_mem_all (hr + 1)
      (s.sty (hr + 1) (find_original_table_end s (hr + 1))) newCols s
      (buildColMapping s (hr + 1) (find_original_table_end s (hr + 1)))
      (find_original_table_end s (hr + 1) + 1) n hn
  have hnoop := addNewColumns_noop (hr + 1)
    ((create_enriched_excel s hr newCols dfCols rows).sheet.sty (hr + 1)
      (find_original_table_end
        (create_enriched_excel s hr newCols dfCols rows).sheet (hr + 1)))
    newCols (create_enriched_excel s hr newCols dfCols rows).sheet
    (buildColMapping (create_enriched_excel s hr newCols dfCols rows).sheet (hr + 1)
      (find_original_table_end
        (create_enriched_excel s hr newCols dfCols rows).sheet (hr + 1)))
    (find_original_table_end
      (create_enriched_excel s hr newCols dfCols rows).sheet (hr + 1) + 1) hmem2
  have hA2 : addPhase (create_enriched_excel s hr newCols dfCols rows).sheet hr newCols =
      ((create_enriched_excel s hr newCols dfCols rows).sheet,
        (addPhase s hr newCols).2.1, (addPhase s hr newCols).2.2) := by
    show addNewColumns (hr + 1)
      ((create_enriched_excel s hr newCols dfCols rows).sheet.sty (hr + 1)
        (find_original_table_end
          (create_enriched_excel s hr newCols dfCols rows).sheet (hr + 1)))
      (create_enriched_excel s hr newCols dfCols rows).sheet newCols
      (buildColMapping (create_enriched_excel s hr newCols dfCols rows).sheet (hr + 1)
        (find_original_table_end
          (create_enriched_excel s hr newCols dfCols rows).sheet (hr + 1)))
      (find_original_table_end
        (create_enriched_excel s hr newCols dfCols rows).sheet (hr + 1) + 1) = _
    rw [hnoop, hm20, hext]
    have hp1 : (addPhase s hr newCols).2.2 - 1 + 1 = (addPhase s hr newCols).2.2 := by
      omega
    rw [hp1]
  refine ⟨?_, ?_, ?_, ?_⟩
  · rw [create_mapping_def, hA2, create_mapping_def]
  · rw [create_nextCol_def, hA2, create_nextCol_def]
  · intro c
    rw [create_row_h, hA2]
  · rcases addNewColumns_append (hr + 1)
      (s.sty (hr + 1) (find_original_table_end s (hr + 1))) newCols s
      (buildColMapping s (hr + 1) (find_original_table_end s (hr + 1)))
      (find_original_table_end s (hr + 1) + 1) with ⟨tail, ht, hb⟩
    refine ⟨tail, ?_, ?_⟩
    · rw [create_mapping_def]
      exact ht
    · intro q hq
      have := hb q hq
      omega

def c9sheet : Sheet :=
  { val := fun r c =>
      if r = 1 ∧ c = 1 then some "TIPO DE UNIDAD"
      else if r = 2 ∧ c = 1 then some "TRACTO" else none
    sty := fun _ _ => default
    maxRow := 2
    maxCol := 1 }

def c9rows : List (String → Option String) :=
  [fun c => if c = "TIPO DE UNIDAD" then some "TRACTO" else none]

/-- Witness for C9 on a concrete one-row workbook with the configured new
columns. -/
theorem c9_rewrite_idempotent_witness :
    (∀ n ∈ newColumnsConfig, pyStrip n = n ∧ n ≠ "") ∧
    ((create_enriched_excel
        (create_enriched_excel c9sheet 0 newColumnsConfig ["TIPO DE UNIDAD"] c9rows).sheet
        0 newColumnsConfig ["TIPO DE UNIDAD"] c9rows).mapping =
      (create_enriched_excel c9sheet 0 newColumnsConfig ["TIPO DE UNIDAD"] c9rows).mapping ∧
    (create_enriched_excel
        (create_enriched_excel c9sheet 0 newColumnsConfig ["TIPO DE UNIDAD"] c9rows).sheet
        0 newColumnsConfig ["TIPO DE UNIDAD"] c9rows).nextCol =
      (create_enriched_excel c9sheet 0 newColumnsConfig ["TIPO DE UNIDAD"] c9rows).nextCol ∧
    (∀ c, (create_enriched_excel
        (create_enriched_excel c9sheet 0 newColumnsConfig ["TIPO DE UNIDAD"] c9rows).sheet
        0 newColumnsConfig ["TIPO DE UNIDAD"] c9rows).sheet.val (0 + 1) c =
      (create_enriched_excel c9sheet 0 newColumnsConfig
        ["TIPO DE UNIDAD"] c9rows).sheet.val (0 + 1) c) ∧
    (∃ tail,
      (create_enriched_excel c9sheet 0 newColumnsConfig ["TIPO DE UNIDAD"] c9rows).mapping =
        buildColMapping c9sheet (0 + 1) (find_original_table_end c9sheet (0 + 1)) ++ tail ∧
      ∀ q ∈ tail, find_original_table_end c9sheet (0 + 1) < q.2)) :=
  ⟨by decide,
    c9_rewrite_idempotent c9sheet 0 newColumnsConfig ["TIPO DE UNIDAD"] c9rows (by decide)⟩

/-! ## The enrichment engine
(`apply_ai_enrichment`, excel_service.py lines 29-112; collaborator
services, openai_service.py; rules, config.py)

Rows are maps from column label to optional value, `none` standing for
pandas `NaN`; Python's `str(value)` renders `NaN` as the text "nan". -/

def pyStr (v : Option String) : String :=
  match v with
  | some s => s
  | none => "nan"

structure InsuranceValues where
  LIMITES : String
  DEDUCIBLES : String
deriving DecidableEq, Repr

structure VehicleInfo where
  description : String
  type : String
  year : String
  model : String
deriving DecidableEq, Repr

structure Rules where
  coberturas_por_tipo : List (String × List (String × InsuranceValues))
  columnas_a_agregar : List String
  columna_referencia : String

/-- `SAMPLE_RULES` (app/core/config.py, lines 49-118): the static rule
table, the columns to add and the reference column. -/
def SAMPLE_RULES : Rules :=
  { coberturas_por_tipo :=
      [("TRACTOS",
        [("DANOS MATERIALES", ⟨"VALOR CONVENIDO", "10 %"⟩),
         ("ROBO TOTAL", ⟨"VALOR CONVENIDO", "10 %"⟩),
         ("RESPONSABILIDAD CIVIL POR DANOS A TERCEROS", ⟨"$US 6 000 000", "N/A"⟩),
         ("RESPONSABILIDAD CIVIL POR FALLECIMIENTO A PERSONAS", ⟨"$US 2 000 000", "N/A"⟩)]),
       ("REMOLQUES",
        [("DANOS MATERIALES", ⟨"VALOR CONVENIDO", "5 %"⟩),
         ("ROBO TOTAL", ⟨"VALOR CONVENIDO", "5 %"⟩)])]
    columnas_a_agregar := newColumnsConfig
    columna_referencia := "TIPO DE UNIDAD" }

def lookupStr {α : Type} (l : List (String × α)) (k : String) : Option α :=
  (l.find? (fun p => p.1 == k)).map Prod.snd

/-- `_get_fallback_values` (openai_service.py, lines 211-223): fixed
values by vehicle type, independent of the rule table. -/
def get_fallback_values (vehicle_type : String) : InsuranceValues :=
  if vehicle_type = "TRACTOS" then ⟨"$US 120,000", "10.0 %"⟩
  else ⟨"$US 60,000", "6.0 %"⟩

/-- `_fallback_classification` (openai_service.py, lines 225-234).  The
`available_types` parameter is accepted but unused, as in the source. -/
def fallback_classification (vehicle_description : String)
    (_available_types : List String) : String :=
  let vehicleUpper := pyStrip (pyUpper vehicle_description)
  if isSubstrOf "TRACTO" vehicleUpper then "TRACTOS"
  else if ["TANQUE", "REMOLQUE", "DOLLY", "SEMI"].any
      (fun k => isSubstrOf k vehicleUpper) then "REMOLQUES"
  else "TRACTOS"

/-- `classify_vehicle` (openai_service.py, lines 149-196).  The OpenAI
call is the oracle: `none` = not configured, `.error` = the call raised
(both fall back to the keyword classification), `.ok resp` = the model's
reply, upper-cased/stripped and validated against the available types with
"TRACTOS" as the default. -/
def classify_vehicle (remote : Option (Except String String))
    (vehicle_description : String) (available_types : List String) : String :=
  match remote with
  | none => fallback_classification vehicle_description available_types
  | some (.error _) => fallback_classification vehicle_description available_types
  | some (.ok resp) =>
    let classification := pyUpper (pyStrip resp)
    if available_types.contains classification then classification else "TRACTOS"

/-- `generate_insurance_values` (openai_service.py, lines 62-147): with no
configured client or on any error (including an invalid JSON reply,
folded into `.error`), the static fallback keyed by vehicle type is
returned; a successful, validated reply is returned as-is.  Every path
returns a value — the function never raises. -/
def generate_insurance_values (remote : Option (Except String InsuranceValues))
    (vehicle_info : VehicleInfo) (_coverage_type : String) : InsuranceValues :=
  match remote with
  | none => get_fallback_values vehicle_info.type
  | some (.error _) => get_fallback_values vehicle_info.type
  | some (.ok v) => v

/-! ### `extract_vehicle_info` (excel_utils.py, lines 96-119) -/

def eviGo (row : String → Option String) :
    List String → String × String → String × String
  | [], ym => ym
  | col :: rest, ym =>
    let colU := pyUpper col
    if ["MOD", "YEAR", "AÑO", "MODELO"].any (fun k => isSubstrOf k colU) then
      eviGo row rest (ym.1, if ym.2 = "" then pyStrip (pyStr (row col)) else ym.2)
    else if (["YEAR", "AÑO"].any (fun k => isSubstrOf k colU)) ∧ colU ≠ ym.2 then
      eviGo row rest (pyStrip (pyStr (row col)), ym.2)
    else eviGo row rest ym

/-- The guard `'vehicle_description' in locals()` at excel_utils.py line
113: inside `extract_vehicle_info` the local names are only `row`, `df`,
`year`, `model`, `col`, `col_upper` (and, under the guard, `re` and
`year_match`); the name `vehicle_description` is never bound in that
scope, so the membership test is False on every call. -/
def localsHasVehicleDescription : Bool := false

def isWordChar (c : Char) : Bool := c.isAlphanum || c = '_'

/-- `re.search(r'\b(19|20)\d{2}\b', s)`: the leftmost four-digit run
starting with 19 or 20, delimited by word boundaries. -/
def pyYearSearch (s : String) : Option String :=
  (List.range s.data.length).findSome? (fun i =>
    let sub := (s.data.drop i).take 4
    if sub.length = 4 ∧ sub.all Char.isDigit ∧
        ((s.data.get? i = some '1' ∧ s.data.get? (i + 1) = some '9') ∨
         (s.data.get? i = some '2' ∧ s.data.get? (i + 1) = some '0')) ∧
        (i = 0 ∨ ¬ isWordChar (((s.data.get? (i - 1)).getD ' '))) ∧
        (¬ isWordChar (((s.data.get? (i + 4)).getD ' ')))
    then some (String.mk sub) else none)

/-- `extract_vehicle_info`: scan the columns for model/year keywords, then
(under the always-false `locals()` guard) try the year regex on the row's
first value.  Returns `(year, model)`. -/
def extract_vehicle_info (row : String → Option String) (dfCols : List String) :
    String × String :=
  let ym := eviGo row dfCols ("", "")
  let year :=
    if ym.1 = "" ∧ localsHasVehicleDescription then
      match pyYearSearch (pyStr (row (dfCols.headD ""))) with
      | some y => y
      | none => ym.1
    else ym.1
  (year, ym.2)

/-! ### The per-row enrichment and the engine

In the source, the per-row body sits in a `try`/`except` whose handler
logs and `continue`s.  The collaborator wrappers `classify_vehicle` and
`generate_insurance_values` are themselves total (they catch their own
errors and fall back), so an exception can reach the handler only from
the collaborator layer; the engine is therefore parameterised over an
`Except`-valued classifier, `.error` standing for a raised exception —
which the engine catches by keeping the row as it is and moving on. -/

def rowSet (r : String → Option String) (c v : String) : String → Option String :=
  fun c' => if c' = c then some v else r c'

/-- `enriched_df[col] = ""` for each configured column (excel_service.py,
lines 52-54): every row gets the new columns with the empty-string
value (overwriting any pre-existing column of the same name). -/
def initNewCols (newCols : List String) (r : String → Option String) :
    String → Option String :=
  fun c => if newCols.contains c then some "" else r c

/-- One iteration of the enrichment loop (excel_service.py, lines
60-110): skip blank / "nan" / "none" reference values; classify (an
`.error` is the caught per-row exception: the row is left as it is and
processing continues); look up the coverage rules for the returned type
(absent type: warning only); write the DANOS MATERIALES and ROBO TOTAL
limit/deductible pairs produced by the value generator. -/
def process_row (classify : String → List String → Except String String)
    (genRemote : Option (Except String InsuranceValues)) (rules : Rules)
    (dfCols : List String) (reference_column : String)
    (r : String → Option String) : String → Option String :=
  let desc := pyStrip (pyStr (r reference_column))
  if desc = "" ∨ ["nan", "none", ""].contains (pyLower desc) then r
  else
    match classify desc (rules.coberturas_por_tipo.map Prod.fst) with
    | .error _ => r
    | .ok coverage_type =>
      let extra := extract_vehicle_info r dfCols
      let vinfo : VehicleInfo := ⟨desc, coverage_type, extra.1, extra.2⟩
      match lookupStr rules.coberturas_por_tipo coverage_type with
      | none => r
      | some coverages =>
        let r1 :=
          if (coverages.map Prod.fst).contains "DANOS MATERIALES" then
            let dv := generate_insurance_values genRemote vinfo "DANOS MATERIALES"
            rowSet (rowSet r "DANOS MATERIALES LIMITES" dv.LIMITES)
              "DANOS MATERIALES DEDUCIBLES" dv.DEDUCIBLES
          else r
        if (coverages.map Prod.fst).contains "ROBO TOTAL" then
          let rv := generate_insurance_values genRemote vinfo "ROBO TOTAL"
          rowSet (rowSet r1 "ROBO TOTAL LIMITES" rv.LIMITES)
            "ROBO TOTAL DEDUCIBLES" rv.DEDUCIBLES
        else r1

structure DF where
  cols : List String
  rows : List (String → Option String)

/-- `apply_ai_enrichment` (excel_service.py, lines 29-112): resolve the
reference column (failure aborts the whole enrichment with a `ValueError`
listing the available columns, modelled as `.error df.cols`); add the
configured new columns (blank); process each row in order. -/
def apply_ai_enrichment (classify : String → List String → Except String String)
    (genRemote : Option (Except String InsuranceValues)) (df : DF)
    (rules : Rules) : Except (List String) DF :=
  match find_column_mapping df.cols rules.columna_referencia with
  | .error _ => .error df.cols
  | .ok reference_column =>
    let colsAfter := df.cols ++ rules.columnas_a_agregar.filter
      (fun c => ¬ df.cols.contains c)
    .ok ⟨colsAfter, df.rows.map (fun r =>
      process_row classify genRemote rules colsAfter reference_column
        (initNewCols rules.columnas_a_agregar r))⟩

/-- The year accumulator never changes during the column scan: the
`elif` branch requires "YEAR" or "AÑO" in the upper-cased column name,
but every such column already satisfies the preceding model-keyword
condition ("YEAR" and "AÑO" are in its keyword list), so the `elif` is
unreachable. -/
lemma eviGo_year_const (row : String → Option String) :
    ∀ cols ym, (eviGo row cols ym).1 = ym.1 := by
  intro cols
  induction cols with
  | nil => intro ym; rfl
  | cons col rest ih =>
    intro ym
    show (if ["MOD", "YEAR", "AÑO", "MODELO"].any
        (fun k => isSubstrOf k (pyUpper col)) then
        eviGo row rest (ym.1, if ym.2 = "" then pyStrip (pyStr (row col)) else ym.2)
      else if (["YEAR", "AÑO"].any (fun k => isSubstrOf k (pyUpper col))) ∧
          pyUpper col ≠ ym.2 then
        eviGo row rest (pyStrip (pyStr (row col)), ym.2)
      else eviGo row rest ym).1 = ym.1
    by_cases h1 : ["MOD", "YEAR", "AÑO", "MODELO"].any
        (fun k => isSubstrOf k (pyUpper col)) = true
    · rw [if_pos h1, ih]
    · rw [if_neg h1, if_neg ?_, ih]
      rintro ⟨ha, -⟩
      have ha' : isSubstrOf "YEAR" (pyUpper col) = true ∨
          isSubstrOf "AÑO" (pyUpper col) = true := by simpa using ha
      apply h1
      rcases ha' with h | h <;> simp [h]

/-- C10: For every input row and DataFrame, the vehicle-info extraction
returns year = "" (the empty string): the column-based year branch is
unreachable because any column name containing "YEAR" or "AÑO" already
satisfies the preceding model-keyword condition, and the description-regex
branch is guarded by a `locals()` membership test that is always false
inside the function; only the model field can ever be non-empty. -/
theorem c10_extract_year_empty (row : String → Option String)
    (dfCols : List String) :
    (extract_vehicle_info row dfCols).1 = "" ∧
    extract_vehicle_info row dfCols =
      ("", (extract_vehicle_info row dfCols).2) := by
  have hy := eviGo_year_const row dfCols ("", "")
  have h1 : (extract_vehicle_info row dfCols).1 = "" := by
    show (if (eviGo row dfCols ("", "")).1 = "" ∧ localsHasVehicleDescription then
        match pyYearSearch (pyStr (row (dfCols.headD ""))) with
        | some y => y
        | none => (eviGo row dfCols ("", "")).1
      else (eviGo row dfCols ("", "")).1) = ""
    rw [if_neg ?_]
    · exact hy
    · rintro ⟨-, hfalse⟩
      simp [localsHasVehicleDescription] at hfalse
  exact ⟨h1, Prod.ext h1 rfl⟩

/-! ### Claims C1 and C8 -/

def c1row : String → Option String := fun c =>
  if c = "TIPO DE UNIDAD" then some "TRACTO"
  else if c = "MOD" then some "2022" else none

def c1df : DF := ⟨["TIPO DE UNIDAD", "MOD"], [c1row]⟩

/-- The enriched output row of `c1df` under the unconfigured-client
oracles (the deterministic fallback path). -/
def c1result : String → Option String :=
  match apply_ai_enrichment
      (fun desc types => .ok (classify_vehicle none desc types)) none c1df
      SAMPLE_RULES with
  | .ok d => d.rows.getD 0 (fun _ => none)
  | .error _ => fun _ => none

/-- C1 (code bug): the rule table stores {LIMITES: "VALOR CONVENIDO",
DEDUCIBLES: "10 %"} for DANOS MATERIALES under TRACTOS, and the config's
own `ejemplo_output_esperado` documents those as the values the output row
should gain — but `_get_fallback_values` ignores the rule table and
returns the hard-coded pair ("$US 120,000", "10.0 %"), so the enriched row
for a TRACTO vehicle (classified TRACTOS by the fallback classifier) gains
"$US 120,000"/"10.0 %" instead of the rule-table values. -/
theorem c1_static_fallback_ignores_rule_table :
    lookupStr ((lookupStr SAMPLE_RULES.coberturas_por_tipo "TRACTOS").getD [])
        "DANOS MATERIALES" =
      some ⟨"VALOR CONVENIDO", "10 %"⟩ ∧
    get_fallback_values "TRACTOS" = ⟨"$US 120,000", "10.0 %"⟩ ∧
    (apply_ai_enrichment (fun desc types => .ok (classify_vehicle none desc types))
        none c1df SAMPLE_RULES).toOption.isSome = true ∧
    c1result "DANOS MATERIALES LIMITES" = some "$US 120,000" ∧
    c1result "DANOS MATERIALES DEDUCIBLES" = some "10.0 %" ∧
    c1result "DANOS MATERIALES LIMITES" ≠ some "VALOR CONVENIDO" ∧
    c1result "DANOS MATERIALES DEDUCIBLES" ≠ some "10 %" := by
  refine ⟨by decide, by decide, by decide, by decide, by decide, by decide, by decide⟩

lemma apply_ai_enrichment_error_char (classify : String → List String → Except String String)
    (genRemote : Option (Except String InsuranceValues)) (df : DF) (rules : Rules)
    (e : List String)
    (hf : find_column_mapping df.cols rules.columna_referencia = .error e) :
    apply_ai_enrichment classify genRemote df rules = .error df.cols := by
  unfold apply_ai_enrichment
  rw [hf]

lemma apply_ai_enrichment_ok_char (classify : String → List String → Except String String)
    (genRemote : Option (Except String InsuranceValues)) (df : DF) (rules : Rules)
    (refCol : String)
    (hf : find_column_mapping df.cols rules.columna_referencia = .ok refCol) :
    apply_ai_enrichment classify genRemote df rules =
      .ok ⟨df.cols ++ rules.columnas_a_agregar.filter (fun c => ¬ df.cols.contains c),
        df.rows.map (fun r =>
          process_row classify genRemote rules
            (df.cols ++ rules.columnas_a_agregar.filter (fun c => ¬ df.cols.contains c))
            refCol (initNewCols rules.columnas_a_agregar r))⟩ := by
  unfold apply_ai_enrichment
  rw [hf]

/-- A row whose reference value is blank (or a textual null marker), or
on which the classifier call raises, is passed through unchanged. -/
lemma process_row_skip (classify : String → List String → Except String String)
    (genRemote : Option (Except String InsuranceValues)) (rules : Rules)
    (dfCols : List String) (refCol : String) (r : String → Option String)
    (hskip : pyStrip (pyStr (r refCol)) = "" ∨
      ["nan", "none", ""].contains (pyLower (pyStrip (pyStr (r refCol)))) = true ∨
      (∃ err, classify (pyStrip (pyStr (r refCol)))
        (rules.coberturas_por_tipo.map Prod.fst) = .error err)) :
    process_row classify genRemote rules dfCols refCol r = r := by
  unfold process_row
  by_cases hb : pyStrip (pyStr (r refCol)) = "" ∨
      ["nan", "none", ""].contains (pyLower (pyStrip (pyStr (r refCol)))) = true
  · rw [if_pos hb]
  · rw [if_neg hb]
    rcases hskip with h | h | ⟨err, herr⟩
    · exact absurd (Or.inl h) hb
    · exact absurd (Or.inr h) hb
    · rw [herr]

lemma getD_map_row (f : (String → Option String) → (String → Option String))
    (l : List (String → Option String)) (i : Nat) (hi : i < l.length) :
    (l.map f).getD i (fun _ => none) = f (l.getD i (fun _ => none)) := by
  rw [List.getD_eq_getElem _ _ (by simpa using hi), List.getD_eq_getElem _ _ hi,
    List.getElem_map]

/-- C8: Enrichment aborts entirely with an error listing the available
columns if and only if the reference column cannot be resolved; for every
other row-level failure (modelled by the classifier collaborator raising)
the exception is caught, the row is skipped with its new enrichment
columns left blank, and processing continues — in particular a row whose
reference value is blank (or the textual markers "nan"/"none") is skipped
without any exception propagating. -/
theorem c8_enrichment_error_policy
    (classify : String → List String → Except String String)
    (genRemote : Option (Except String InsuranceValues)) (df : DF) :
    ((∃ msg, apply_ai_enrichment classify genRemote df SAMPLE_RULES = .error msg) ↔
      (∃ e, find_column_mapping df.cols "TIPO DE UNIDAD" = .error e)) ∧
    (∀ msg, apply_ai_enrichment classify genRemote df SAMPLE_RULES = .error msg →
      msg = df.cols) ∧
    (∀ refCol d i,
      find_column_mapping df.cols "TIPO DE UNIDAD" = .ok refCol →
      apply_ai_enrichment classify genRemote df SAMPLE_RULES = .ok d →
      i < df.rows.length →
      (pyStrip (pyStr (initNewCols SAMPLE_RULES.columnas_a_agregar
          (df.rows.getD i (fun _ => none)) refCol)) = "" ∨
       ["nan", "none", ""].contains (pyLower (pyStrip (pyStr (initNewCols
          SAMPLE_RULES.columnas_a_agregar (df.rows.getD i (fun _ => none))
          refCol)))) = true ∨
       (∃ err, classify (pyStrip (pyStr (initNewCols SAMPLE_RULES.columnas_a_agregar
          (df.rows.getD i (fun _ => none)) refCol)))
          (SAMPLE_RULES.coberturas_por_tipo.map Prod.fst) = .error err)) →
      (∀ c ∈ SAMPLE_RULES.columnas_a_agregar,
        (d.rows.getD i (fun _ => none)) c = some "") ∧
      (∀ c, ¬ c ∈ SAMPLE_RULES.columnas_a_agregar →
        (d.rows.getD i (fun _ => none)) c = (df.rows.getD i (fun _ => none)) c)) := by
  refine ⟨?_, ?_, ?_⟩
  · constructor
    · rintro ⟨msg, hmsg⟩
      rcases hf : find_column_mapping df.cols "TIPO DE UNIDAD" with e | refCol
      · exact ⟨e, rfl⟩
      · have hf' : find_column_mapping df.cols SAMPLE_RULES.columna_referencia =
            .ok refCol := hf
        have hok := apply_ai_enrichment_ok_char classify genRemote df SAMPLE_RULES
          refCol hf'
        rw [hok] at hmsg
        cases hmsg
    · rintro ⟨e, he⟩
      have he' : find_column_mapping df.cols SAMPLE_RULES.columna_referencia =
          .error e := he
      exact ⟨df.cols, apply_ai_enrichment_error_char classify genRemote df
        SAMPLE_RULES e he'⟩
  · intro msg hmsg
    rcases hf : find_column_mapping df.cols "TIPO DE UNIDAD" with e | refCol
    · have he' : find_column_mapping df.cols SAMPLE_RULES.columna_referencia =
          .error e := hf
      have herr := apply_ai_enrichment_error_char classify genRemote df SAMPLE_RULES
        e he'
      have h2 : Except.error (α := DF) msg = Except.error df.cols :=
        hmsg.symm.trans herr
      exact (Except.error.inj h2)
    · have hf' : find_column_mapping df.cols SAMPLE_RULES.columna_referencia =
          .ok refCol := hf
      have hok := apply_ai_enrichment_ok_char classify genRemote df SAMPLE_RULES
        refCol hf'
      rw [hok] at hmsg
      cases hmsg
  · intro refCol d i hf happ hi hskip
    have hf' : find_column_mapping df.cols SAMPLE_RULES.columna_referencia =
        .ok refCol := hf
    have hok := apply_ai_enrichment_ok_char classify genRemote df SAMPLE_RULES
      refCol hf'
    have h2 := happ.symm.trans hok
    have hd := Except.ok.inj h2
    have hrows : d.rows = df.rows.map (fun r =>
        process_row classify genRemote SAMPLE_RULES
          (df.cols ++ SAMPLE_RULES.columnas_a_agregar.filter
            (fun c => ¬ df.cols.contains c))
          refCol (initNewCols SAMPLE_RULES.columnas_a_agregar r)) := by
      rw [hd]
    have hgetd : (d.rows).getD i (fun _ => none) =
        process_row classify genRemote SAMPLE_RULES
          (df.cols ++ SAMPLE_RULES.columnas_a_agregar.filter
            (fun c => ¬ df.cols.contains c))
          refCol (initNewCols SAMPLE_RULES.columnas_a_agregar
            (df.rows.getD i (fun _ => none))) := by
      rw [hrows, getD_map_row _ _ i hi]
    have hskiprow := process_row_skip classify genRemote SAMPLE_RULES
      (df.cols ++ SAMPLE_RULES.columnas_a_agregar.filter
        (fun c => ¬ df.cols.contains c))
      refCol (initNewCols SAMPLE_RULES.columnas_a_agregar
        (df.rows.getD i (fun _ => none))) hskip
    rw [hgetd, hskiprow]
    constructor
    · intro c hc
      show (if SAMPLE_RULES.columnas_a_agregar.contains c then some ""
        else df.rows.getD i (fun _ => none) c) = some ""
      rw [if_pos (by simpa using hc)]
    · intro c hc
      show (if SAMPLE_RULES.columnas_a_agregar.contains c then some ""
        else df.rows.getD i (fun _ => none) c) = df.rows.getD i (fun _ => none) c
      rw [if_neg (by simpa using hc)]

def c8df : DF :=
  ⟨["TIPO DE UNIDAD"], [fun c => if c = "TIPO DE UNIDAD" then some "" else none]⟩

def c8result : DF :=
  match apply_ai_enrichment (fun _ _ => Except.error "boom") none c8df
      SAMPLE_RULES with
  | .ok d => d
  | .error _ => ⟨[], []⟩

/-- Witness for C8: one row with a blank reference value, under a
classifier that raises on every call — enrichment succeeds, the row is
skipped with its four new columns blank, and nothing else in it changes. -/
theorem c8_enrichment_error_policy_witness :
    find_column_mapping c8df.cols "TIPO DE UNIDAD" = Except.ok "TIPO DE UNIDAD" ∧
    apply_ai_enrichment (fun _ _ => Except.error "boom") none c8df SAMPLE_RULES =
      Except.ok c8result ∧
    (0 : Nat) < c8df.rows.length ∧
    pyStrip (pyStr (initNewCols SAMPLE_RULES.columnas_a_agregar
      (c8df.rows.getD 0 (fun _ => none)) "TIPO DE UNIDAD")) = "" ∧
    (∀ c ∈ SAMPLE_RULES.columnas_a_agregar,
      (c8result.rows.getD 0 (fun _ => none)) c = some "") ∧
    (∀ c, ¬ c ∈ SAMPLE_RULES.columnas_a_agregar →
      (c8result.rows.getD 0 (fun _ => none)) c =
        (c8df.rows.getD 0 (fun _ => none)) c) := by
  have h := (c8_enrichment_error_policy (fun _ _ => Except.error "boom") none
      c8df).2.2 "TIPO DE UNIDAD" c8result 0 (by decide) rfl (by decide)
      (Or.inl (by decide))
  exact ⟨by decide, rfl, by decide, by decide, h.1, h.2⟩

/-! ## `detect_header_row` (excel_utils.py, lines 14-62)

The per-candidate `pd.read_excel` parse is the abstract `parse` argument:
`none` models a parse failure (the swallowed per-row exception), `some
cols` the resulting column labels.  `MAX_HEADER_SEARCH_ROWS = 5` and
`DEFAULT_HEADER_ROW = 1` in the configuration; both are parameters here. -/

/-- The `column_variations` list (lines 38-44). -/
def column_variations (target : String) : List String :=
  [pyUpper target, pyLower target, pyTitle target,
   replaceChar target ' ' '_', replaceChar target '_' ' ']

/-- Lines 33-50: the row matches when the target is literally among the
labels, or some label's stripped upper-cased text contains one of the
upper-cased variations as a substring. -/
def header_row_matches (target : String) (cols : List String) : Bool :=
  cols.contains target ||
  cols.any (fun col =>
    (column_variations target).any (fun v =>
      isSubstrOf (pyUpper v) (pyUpper (pyStrip col))))

def detectGo (parse : Nat → Option (List String)) (target : String)
    (default_ : Nat) : Nat → Nat → Nat
  | 0, _ => default_
  | k + 1, r =>
    match parse r with
    | some cols =>
      if header_row_matches target cols then r
      else detectGo parse target default_ k (r + 1)
    | none => detectGo parse target default_ k (r + 1)

/-- `detect_header_row`: scan candidate rows `0..K-1`, returning the first
match; fall back to the configured default row when none matches; a parse
failure at a row is a non-match, never an error. -/
def detect_header_row (parse : Nat → Option (List String)) (target : String)
    (K default_ : Nat) : Nat :=
  detectGo parse target default_ K 0

def rowMatchAt (parse : Nat → Option (List String)) (target : String)
    (r : Nat) : Bool :=
  match parse r with
  | some cols => header_row_matches target cols
  | none => false

def firstMatchIdx (parse : Nat → Option (List String)) (target : String)
    (K : Nat) : Option Nat :=
  (List.range K).find? (rowMatchAt parse target)

/-- Modelled from the claim's words, for the claim-side comparison: a
label that is "the target column name or a case/spacing/underscore
variant of it" — equal to the target (up to letter case, after
stripping), either as-is or with all spaces replaced by underscores or
all underscores replaced by spaces. -/
def specIsVariant (target c : String) : Bool :=
  c == target ||
  pyUpper (pyStrip c) == pyUpper target ||
  pyUpper (pyStrip c) == pyUpper (replaceChar target ' ' '_') ||
  pyUpper (pyStrip c) == pyUpper (replaceChar target '_' ' ')

def specVariantAppears (target : String) (cols : List String) : Bool :=
  cols.any (specIsVariant target)

def c6parse : Nat → Option (List String) := fun r =>
  if r = 0 then some ["BTIPO DE UNIDADB"]
  else if r = 1 then some ["TIPO DE UNIDAD"] else none

/-- C6 counterexample: at row 0 the only label "BTIPO DE UNIDADB" is not
the target nor any case/spacing/underscore variant of it (the claim's
condition), while row 1 holds the target exactly; the smallest row where
the claim's condition holds is therefore 1 — yet the locator returns 0,
because its matching is substring-based and the row-0 label merely
contains the target. -/
theorem c6_header_locator_counterexample :
    specVariantAppears "TIPO DE UNIDAD" ["BTIPO DE UNIDADB"] = false ∧
    specVariantAppears "TIPO DE UNIDAD" ["TIPO DE UNIDAD"] = true ∧
    detect_header_row c6parse "TIPO DE UNIDAD" 5 1 = 0 ∧
    (0 : Nat) ≠ 1 :=
  ⟨by decide, by decide, by decide, by decide⟩

lemma isSubstrOf_self (s : String) : isSubstrOf s s = true := by
  unfold isSubstrOf
  refine List.any_eq_true.mpr ⟨0, ?_, ?_⟩
  · exact List.mem_range.mpr (by omega)
  · rw [List.drop_zero]
    exact List.isPrefixOf_iff_prefix.mpr (List.prefix_refl _)

lemma detectGo_eq_find? (parse : Nat → Option (List String)) (target : String)
    (default_ : Nat) :
    ∀ k r, detectGo parse target default_ k r =
      ((List.range' r k).find? (rowMatchAt parse target)).getD default_ := by
  intro k
  induction k with
  | zero => intro r; rfl
  | succ n ih =>
    intro r
    rw [List.range'_succ]
    show (match parse r with
      | some cols =>
        if header_row_matches target cols then r
        else detectGo parse target default_ n (r + 1)
      | none => detectGo parse target default_ n (r + 1)) = _
    rcases hp : parse r with _ | cols
    · have hm : rowMatchAt parse target r = false := by
        unfold rowMatchAt
        rw [hp]
      rw [List.find?_cons_of_neg _ (by rw [hm]; exact Bool.false_ne_true)]
      exact ih (r + 1)
    · by_cases hmatch : header_row_matches target cols = true
      · have hm : rowMatchAt parse target r = true := by
          unfold rowMatchAt
          rw [hp]
          exact hmatch
        show (if header_row_matches target cols = true then r
          else detectGo parse target default_ n (r + 1)) = _
        rw [if_pos hmatch, List.find?_cons_of_pos _ hm]
        rfl
      · have hm : rowMatchAt parse target r = false := by
          unfold rowMatchAt
          rw [hp]
          simpa using hmatch
        show (if header_row_matches target cols = true then r
          else detectGo parse target default_ n (r + 1)) = _
        rw [if_neg hmatch, List.find?_cons_of_neg _ (by rw [hm]; exact Bool.false_ne_true)]
        exact ih (r + 1)

/-- C6 (amended): the header locator returns the smallest row index
`r < K` at which its match predicate holds — exact membership of the
target among the parsed labels, or some label whose stripped upper-cased
text contains an upper-cased case/underscore variation of the target as a
substring — and the configured default when no row in `0..K-1` matches;
a parse failure at a row is treated as a non-match and never propagates
(the locator is a total function of the parse outcomes).  In particular
every label that is literally the target, or equal up to case/stripping
to the target or to its full space→underscore or underscore→space form,
does trigger a match at its row. -/
theorem c6_header_locator (parse : Nat → Option (List String)) (target : String)
    (K default_ : Nat) :
    detect_header_row parse target K default_ =
      (firstMatchIdx parse target K).getD default_ ∧
    (∀ cols c, c ∈ cols → specIsVariant "TIPO DE UNIDAD" c = true →
      header_row_matches "TIPO DE UNIDAD" cols = true) := by
  constructor
  · unfold detect_header_row firstMatchIdx
    rw [List.range_eq_range']
    exact detectGo_eq_find? parse target default_ K 0
  · intro cols c hc hvar
    have hvar' : c = "TIPO DE UNIDAD" ∨
        pyUpper (pyStrip c) = pyUpper "TIPO DE UNIDAD" ∨
        pyUpper (pyStrip c) = pyUpper (replaceChar "TIPO DE UNIDAD" ' ' '_') ∨
        pyUpper (pyStrip c) = pyUpper (replaceChar "TIPO DE UNIDAD" '_' ' ') := by
      simpa [specIsVariant, Bool.or_eq_true, or_assoc] using hvar
    unfold header_row_matches
    rw [Bool.or_eq_true]
    rcases hvar' with h | h | h | h
    · left
      subst h
      simpa using hc
    · right
      refine List.any_eq_true.mpr ⟨c, hc, List.any_eq_true.mpr
        ⟨pyUpper "TIPO DE UNIDAD", by simp [column_variations], ?_⟩⟩
      rw [h]
      decide
    · right
      refine List.any_eq_true.mpr ⟨c, hc, List.any_eq_true.mpr
        ⟨replaceChar "TIPO DE UNIDAD" ' ' '_', by simp [column_variations], ?_⟩⟩
      rw [h]
      decide
    · right
      refine List.any_eq_true.mpr ⟨c, hc, List.any_eq_true.mpr
        ⟨pyUpper "TIPO DE UNIDAD", by simp [column_variations], ?_⟩⟩
      rw [h]
      decide

/-- Witness for C6 at a concrete input: on `c6parse` the locator's result
equals the first matching row of the scan, and the literal label
"Tipo_de_Unidad" triggers a match. -/
theorem c6_header_locator_witness :
    detect_header_row c6parse "TIPO DE UNIDAD" 5 1 =
      (firstMatchIdx c6parse "TIPO DE UNIDAD" 5).getD 1 ∧
    ("Tipo_de_Unidad" ∈ ["Tipo_de_Unidad"] ∧
      specIsVariant "TIPO DE UNIDAD" "Tipo_de_Unidad" = true ∧
      header_row_matches "TIPO DE UNIDAD" ["Tipo_de_Unidad"] = true) :=
  ⟨(c6_header_locator c6parse "TIPO DE UNIDAD" 5 1).1,
   ⟨by decide, by decide,
    (c6_header_locator c6parse "TIPO DE UNIDAD" 5 1).2 ["Tipo_de_Unidad"]
      "Tipo_de_Unidad" (by decide) (by decide)⟩⟩

/-! ## Style objects and aliasing
(`copy_cell_style` / `apply_cell_style`, formatting_utils.py lines 14-33)

Claim C7 is about object identity, so Python's reference semantics is
made explicit with an object heap: style facet objects (`Font`,
`PatternFill`, `Border`, `Alignment` instances) live at heap addresses;
a cell's facet attributes are references (`none` = facet absent);
`copy.copy` allocates a fresh object with the same value; `Facet()`
allocates a fresh default object; attribute assignment stores the
reference. -/

structure ObjHeap where
  vals : Nat → String
  next : Nat

def halloc (h : ObjHeap) (v : String) : ObjHeap × Nat :=
  ({ vals := fun j => if j = h.next then v else h.vals j, next := h.next + 1 },
    h.next)

/-- In-place mutation of the object at address `i`. -/
def hset (h : ObjHeap) (i : Nat) (v : String) : ObjHeap :=
  { h with vals := fun j => if j = i then v else h.vals j }

structure PyCell where
  font : Option Nat
  fill : Option Nat
  border : Option Nat
  alignment : Option Nat
deriving DecidableEq, Repr

structure StyleDict where
  font : Nat
  fill : Nat
  border : Nat
  alignment : Nat
deriving DecidableEq, Repr

/-- `copy.copy(cell.facet) if cell.facet else Facet()`. -/
def copyFacet (h : ObjHeap) (f : Option Nat) (defaultVal : String) :
    ObjHeap × Nat :=
  match f with
  | some i => halloc h (h.vals i)
  | none => halloc h defaultVal

/-- `copy_cell_style` (lines 14-23): four fresh facet objects. -/
def copy_cell_style (h : ObjHeap) (c : PyCell) : ObjHeap × StyleDict :=
  let f := copyFacet h c.font "Font()"
  let fi := copyFacet f.1 c.fill "PatternFill()"
  let b := copyFacet fi.1 c.border "Border()"
  let a := copyFacet b.1 c.alignment "Alignment()"
  (a.1, ⟨f.2, fi.2, b.2, a.2⟩)

/-- `apply_cell_style` (lines 26-33): assign all four facet references. -/
def apply_cell_style (c : PyCell) (d : StyleDict) : PyCell :=
  ⟨some d.font, some d.fill, some d.border, some d.alignment⟩

def readFacet (h : ObjHeap) (f : Option Nat) : Option String := f.map h.vals

/-- All facet references of a cell point at existing objects. -/
def CellWF (h : ObjHeap) (c : PyCell) : Prop :=
  (∀ i, c.font = some i → i < h.next) ∧ (∀ i, c.fill = some i → i < h.next) ∧
  (∀ i, c.border = some i → i < h.next) ∧
  (∀ i, c.alignment = some i → i < h.next)

def c7heap : ObjHeap := ⟨fun _ => "SourceFont", 1⟩

def c7src : PyCell := ⟨some 0, none, none, none⟩

/-- C7 counterexample: the captured style of `c7src` is applied to two
different cells — as `create_enriched_excel` does when it applies the one
captured `header_style` to every new header cell and the one captured
last-column style to every new data cell of a row.  Both cells end up
referencing the same font object (address 1), and mutating that object
through the first cell changes the second cell's observed font from
"SourceFont" to "MUTATED": style objects are shared between cells, and
mutating one cell's style does affect another's. -/
theorem c7_style_sharing_counterexample :
    (apply_cell_style ⟨none, none, none, none⟩ (copy_cell_style c7heap c7src).2).font =
      (apply_cell_style ⟨some 99, none, none, none⟩
        (copy_cell_style c7heap c7src).2).font ∧
    (apply_cell_style ⟨none, none, none, none⟩ (copy_cell_style c7heap c7src).2).font =
      some 1 ∧
    readFacet (copy_cell_style c7heap c7src).1
      (apply_cell_style ⟨some 99, none, none, none⟩
        (copy_cell_style c7heap c7src).2).font = some "SourceFont" ∧
    readFacet (hset (copy_cell_style c7heap c7src).1 1 "MUTATED")
      (apply_cell_style ⟨some 99, none, none, none⟩
        (copy_cell_style c7heap c7src).2).font = some "MUTATED" :=
  ⟨by decide, by decide, by decide, by decide⟩

lemma copyFacet_id (h : ObjHeap) (f : Option Nat) (dv : String) :
    (copyFacet h f dv).2 = h.next ∧ (copyFacet h f dv).1.next = h.next + 1 := by
  cases f <;> exact ⟨rfl, rfl⟩

lemma copyFacet_val (h : ObjHeap) (f : Option Nat) (dv : String) :
    (copyFacet h f dv).1.vals h.next =
      (match f with | some i => h.vals i | none => dv) := by
  cases f with
  | none =>
    show (if h.next = h.next then dv else h.vals h.next) = dv
    rw [if_pos rfl]
  | some i =>
    show (if h.next = h.next then h.vals i else h.vals h.next) = h.vals i
    rw [if_pos rfl]

lemma copyFacet_preserve (h : ObjHeap) (f : Option Nat) (dv : String) (j : Nat)
    (hj : j < h.next) :
    (copyFacet h f dv).1.vals j = h.vals j := by
  cases f with
  | none =>
    show (if j = h.next then dv else h.vals j) = h.vals j
    rw [if_neg (by omega)]
  | some i =>
    show (if j = h.next then h.vals i else h.vals j) = h.vals j
    rw [if_neg (by omega)]

def cfFont (h : ObjHeap) (cell : PyCell) : ObjHeap × Nat :=
  copyFacet h cell.font "Font()"

def cfFill (h : ObjHeap) (cell : PyCell) : ObjHeap × Nat :=
  copyFacet (cfFont h cell).1 cell.fill "PatternFill()"

def cfBorder (h : ObjHeap) (cell : PyCell) : ObjHeap × Nat :=
  copyFacet (cfFill h cell).1 cell.border "Border()"

def cfAlign (h : ObjHeap) (cell : PyCell) : ObjHeap × Nat :=
  copyFacet (cfBorder h cell).1 cell.alignment "Alignment()"

lemma copy_cell_style_eq (h : ObjHeap) (cell : PyCell) :
    copy_cell_style h cell =
      ((cfAlign h cell).1,
        ⟨(cfFont h cell).2, (cfFill h cell).2,
         (cfBorder h cell).2, (cfAlign h cell).2⟩) := rfl

lemma cfFont_next (h : ObjHeap) (cell : PyCell) :
    (cfFont h cell).1.next = h.next + 1 :=
  (copyFacet_id h cell.font "Font()").2

lemma cfFill_next (h : ObjHeap) (cell : PyCell) :
    (cfFill h cell).1.next = h.next + 2 := by
  unfold cfFill
  rw [(copyFacet_id _ _ _).2, cfFont_next]

lemma cfBorder_next (h : ObjHeap) (cell : PyCell) :
    (cfBorder h cell).1.next = h.next + 3 := by
  unfold cfBorder
  rw [(copyFacet_id _ _ _).2, cfFill_next]

lemma cfAlign_next (h : ObjHeap) (cell : PyCell) :
    (cfAlign h cell).1.next = h.next + 4 := by
  unfold cfAlign
  rw [(copyFacet_id _ _ _).2, cfBorder_next]

lemma copy_cell_style_ids (h : ObjHeap) (cell : PyCell) :
    (copy_cell_style h cell).2.font = h.next ∧
    (copy_cell_style h cell).2.fill = h.next + 1 ∧
    (copy_cell_style h cell).2.border = h.next + 2 ∧
    (copy_cell_style h cell).2.alignment = h.next + 3 := by
  rw [copy_cell_style_eq]
  refine ⟨(copyFacet_id _ _ _).1, ?_, ?_, ?_⟩
  · show (cfFill h cell).2 = h.next + 1
    unfold cfFill
    rw [(copyFacet_id _ _ _).1, cfFont_next]
  · show (cfBorder h cell).2 = h.next + 2
    unfold cfBorder
    rw [(copyFacet_id _ _ _).1, cfFill_next]
  · show (cfAlign h cell).2 = h.next + 3
    unfold cfAlign
    rw [(copyFacet_id _ _ _).1, cfBorder_next]

lemma copy_cell_style_vals (h : ObjHeap) (cell : PyCell) (hwf : CellWF h cell) :
    (copy_cell_style h cell).1.vals h.next =
      (match cell.font with | some i => h.vals i | none => "Font()") ∧
    (copy_cell_style h cell).1.vals (h.next + 1) =
      (match cell.fill with | some i => h.vals i | none => "PatternFill()") ∧
    (copy_cell_style h cell).1.vals (h.next + 2) =
      (match cell.border with | some i => h.vals i | none => "Border()") ∧
    (copy_cell_style h cell).1.vals (h.next + 3) =
      (match cell.alignment with | some i => h.vals i | none => "Alignment()") := by
  obtain ⟨hw1, hw2, hw3, hw4⟩ := hwf
  rw [copy_cell_style_eq]
  refine ⟨?_, ?_, ?_, ?_⟩
  · show (cfAlign h cell).1.vals h.next = _
    unfold cfAlign
    rw [copyFacet_preserve _ _ _ _ (by rw [cfBorder_next]; omega)]
    unfold cfBorder
    rw [copyFacet_preserve _ _ _ _ (by rw [cfFill_next]; omega)]
    unfold cfFill
    rw [copyFacet_preserve _ _ _ _ (by rw [cfFont_next]; omega)]
    unfold cfFont
    exact copyFacet_val h cell.font "Font()"
  · show (cfAlign h cell).1.vals (h.next + 1) = _
    unfold cfAlign
    rw [copyFacet_preserve _ _ _ _ (by rw [cfBorder_next]; omega)]
    unfold cfBorder
    rw [copyFacet_preserve _ _ _ _ (by rw [cfFill_next]; omega)]
    unfold cfFill
    rw [show h.next + 1 = (cfFont h cell).1.next from (cfFont_next h cell).symm,
      copyFacet_val]
    rcases hfi : cell.fill with _ | i
    · rfl
    · show (cfFont h cell).1.vals i = h.vals i
      unfold cfFont
      exact copyFacet_preserve h cell.font "Font()" i (hw2 i hfi)
  · show (cfAlign h cell).1.vals (h.next + 2) = _
    unfold cfAlign
    rw [copyFacet_preserve _ _ _ _ (by rw [cfBorder_next]; omega)]
    unfold cfBorder
    rw [show h.next + 2 = (cfFill h cell).1.next from (cfFill_next h cell).symm,
      copyFacet_val]
    rcases hb : cell.border with _ | i
    · rfl
    · show (cfFill h cell).1.vals i = h.vals i
      unfold cfFill
      rw [copyFacet_preserve _ _ _ _ (by rw [cfFont_next]; have := hw3 i hb; omega)]
      unfold cfFont
      exact copyFacet_preserve h cell.font "Font()" i (hw3 i hb)
  · show (cfAlign h cell).1.vals (h.next + 3) = _
    unfold cfAlign
    rw [show h.next + 3 = (cfBorder h cell).1.next from (cfBorder_next h cell).symm,
      copyFacet_val]
    rcases ha : cell.alignment with _ | i
    · rfl
    · show (cfBorder h cell).1.vals i = h.vals i
      unfold cfBorder
      rw [copyFacet_preserve _ _ _ _ (by rw [cfFill_next]; have := hw4 i ha; omega)]
      unfold cfFill
      rw [copyFacet_preserve _ _ _ _ (by rw [cfFont_next]; have := hw4 i ha; omega)]
      unfold cfFont
      exact copyFacet_preserve h cell.font "Font()" i (hw4 i ha)

/-- C7 (amended): style capture produces a fully detached copy — four
freshly allocated facet objects holding the source facets' values (the
default `Font()`/`PatternFill()`/`Border()`/`Alignment()` value when a
facet is absent), unaffected by later mutation of any pre-existing
object — and style application overwrites all four facets of the target
cell.  But the captured style objects are NOT per-cell: applying one
captured style to two cells makes the cells reference the same four
facet objects, so mutating a facet object reached from one cell changes
the other cell's style as well (the source applies one captured
`header_style` to every new header cell and one captured per-column style
to every data cell of a column). -/
theorem c7_style_capture_and_apply (h : ObjHeap) (cell : PyCell)
    (hwf : CellWF h cell) :
    ((copy_cell_style h cell).2.font = h.next ∧
     (copy_cell_style h cell).2.fill = h.next + 1 ∧
     (copy_cell_style h cell).2.border = h.next + 2 ∧
     (copy_cell_style h cell).2.alignment = h.next + 3) ∧
    (readFacet (copy_cell_style h cell).1 (some (copy_cell_style h cell).2.font) =
       some (match cell.font with | some i => h.vals i | none => "Font()") ∧
     readFacet (copy_cell_style h cell).1 (some (copy_cell_style h cell).2.fill) =
       some (match cell.fill with | some i => h.vals i | none => "PatternFill()") ∧
     readFacet (copy_cell_style h cell).1 (some (copy_cell_style h cell).2.border) =
       some (match cell.border with | some i => h.vals i | none => "Border()") ∧
     readFacet (copy_cell_style h cell).1 (some (copy_cell_style h cell).2.alignment) =
       some (match cell.alignment with | some i => h.vals i | none => "Alignment()")) ∧
    (∀ i v, i < h.next →
       (readFacet (hset (copy_cell_style h cell).1 i v)
           (some (copy_cell_style h cell).2.font) =
         readFacet (copy_cell_style h cell).1 (some (copy_cell_style h cell).2.font)) ∧
       (readFacet (hset (copy_cell_style h cell).1 i v)
           (some (copy_cell_style h cell).2.fill) =
         readFacet (copy_cell_style h cell).1 (some (copy_cell_style h cell).2.fill)) ∧
       (readFacet (hset (copy_cell_style h cell).1 i v)
           (some (copy_cell_style h cell).2.border) =
         readFacet (copy_cell_style h cell).1 (some (copy_cell_style h cell).2.border)) ∧
       (readFacet (hset (copy_cell_style h cell).1 i v)
           (some (copy_cell_style h cell).2.alignment) =
         readFacet (copy_cell_style h cell).1
           (some (copy_cell_style h cell).2.alignment))) ∧
    (∀ c' d, apply_cell_style c' d =
       ⟨some d.font, some d.fill, some d.border, some d.alignment⟩) ∧
    (∀ c1 c2 d,
       (apply_cell_style c1 d).font = (apply_cell_style c2 d).font ∧
       (apply_cell_style c1 d).fill = (apply_cell_style c2 d).fill ∧
       (apply_cell_style c1 d).border = (apply_cell_style c2 d).border ∧
       (apply_cell_style c1 d).alignment = (apply_cell_style c2 d).alignment) := by
  obtain ⟨hi1, hi2, hi3, hi4⟩ := copy_cell_style_ids h cell
  obtain ⟨hv1, hv2, hv3, hv4⟩ := copy_cell_style_vals h cell hwf
  refine ⟨⟨hi1, hi2, hi3, hi4⟩, ⟨?_, ?_, ?_, ?_⟩, ?_,
    fun c' d => rfl, fun c1 c2 d => ⟨rfl, rfl, rfl, rfl⟩⟩
  · rw [hi1]
    show some ((copy_cell_style h cell).1.vals h.next) = _
    rw [hv1]
  · rw [hi2]
    show some ((copy_cell_style h cell).1.vals (h.next + 1)) = _
    rw [hv2]
  · rw [hi3]
    show some ((copy_cell_style h cell).1.vals (h.next + 2)) = _
    rw [hv3]
  · rw [hi4]
    show some ((copy_cell_style h cell).1.vals (h.next + 3)) = _
    rw [hv4]
  · intro i v hi
    rw [hi1, hi2, hi3, hi4]
    refine ⟨?_, ?_, ?_, ?_⟩
    · show some (if h.next = i then v else (copy_cell_style h cell).1.vals h.next) = _
      rw [if_neg (by omega)]
      rfl
    · show some (if h.next + 1 = i then v
        else (copy_cell_style h cell).1.vals (h.next + 1)) = _
      rw [if_neg (by omega)]
      rfl
    · show some (if h.next + 2 = i then v
        else (copy_cell_style h cell).1.vals (h.next + 2)) = _
      rw [if_neg (by omega)]
      rfl
    · show some (if h.next + 3 = i then v
        else (copy_cell_style h cell).1.vals (h.next + 3)) = _
      rw [if_neg (by omega)]
      rfl

/-- Witness for C7 at the concrete source cell `c7src` on `c7heap`. -/
theorem c7_style_capture_and_apply_witness :
    CellWF c7heap c7src ∧
    readFacet (copy_cell_style c7heap c7src).1
        (some (copy_cell_style c7heap c7src).2.font) = some "SourceFont" ∧
    readFacet (copy_cell_style c7heap c7src).1
        (some (copy_cell_style c7heap c7src).2.fill) = some "PatternFill()" := by
  have hwf : CellWF c7heap c7src := by
    refine ⟨?_, ?_, ?_, ?_⟩ <;> intro i hi
    · have h0 : some 0 = some i := hi
      have := Option.some.inj h0
      show i < 1
      omega
    all_goals
      have h0 : (none : Option Nat) = some i := hi
      simp at h0
  have h := c7_style_capture_and_apply c7heap c7src hwf
  exact ⟨hwf, h.2.1.1, h.2.1.2.1⟩
